import Mathlib

/-!
Verification of the negotiated-pricing subsystem of the Cuttingcornersgems
backend, shallowly embedded from the Python source:

* `backend/services/purchase_token_store.py` (token create/verify/consume)
* `backend/services/negotiation_store.py` (threads, messages, agreements)
* `backend/services/entitlements.py` and `backend/services/order_store.py`
* `backend/services/persistence/json_store.py` (atomic JSON persistence)
* the negotiation endpoints of `backend/server.py`

Modelling conventions: timestamps (`datetime.now(timezone.utc)`) are natural
numbers counting seconds, so `timedelta(minutes=m)` is `m * 60`; monetary
amounts (Python floats) are rationals; generated identifiers
(`uuid.uuid4()`, `secrets.token_urlsafe(32)`) are passed in as explicit
string parameters; Python dicts keyed by id are association lists whose
lookup is `List.find?` on the key field, assignment `d[k] = v` is
replace-first-or-append, and in-place mutation of the record found under a
key is update-of-the-first-match.  Each file-backed store holds its records
in memory and calls `JsonStore.save` after every mutation; the `writes`
counter of a store state counts those save calls.
-/

/-! ## Purchase token store (`backend/services/purchase_token_store.py`) -/

/-- Distinct failure reasons returned by `verify_token` / `consume_token`
(the Python code uses the strings "Token not found",
"Token does not belong to user", "Token already consumed", "Token expired"). -/
inductive TokenReason where
  | notFound
  | notOwner
  | alreadyConsumed
  | expired
deriving DecidableEq, Repr

/-- Mirror of the Python class `TokenData` in `purchase_token_store.py`. -/
structure TokenData where
  token : String
  user_id : String
  product_id : String
  amount : Rat
  expires_at : Nat
  agreement_id : String
  consumed : Bool
  consumed_at : Option Nat
deriving DecidableEq, Repr

/-- State of a `FilePurchaseTokenStore`: the in-memory dict `self._tokens`
(as a list keyed by `token`) and the number of `_save_to_file` calls. -/
structure TokenStoreState where
  tokens : List TokenData
  writes : Nat
deriving DecidableEq, Repr

/-- Dict lookup `self._tokens.get(token)`. -/
def findToken (ts : List TokenData) (tok : String) : Option TokenData :=
  ts.find? (fun td => td.token == tok)

/-- Dict assignment `self._tokens[token] = td` (replace the entry with that
key if present, else add it). -/
def insertToken : List TokenData → TokenData → List TokenData
  | [], td => [td]
  | t :: ts, td => if t.token = td.token then td :: ts else t :: insertToken ts td

/-- In-place mutation of the record stored under key `tok`. -/
def updateTokenFirst : List TokenData → String → (TokenData → TokenData) → List TokenData
  | [], _, _ => []
  | t :: ts, tok, f => if t.token = tok then f t :: ts else t :: updateTokenFirst ts tok f

/-- The two mutations `token_data.consumed = True;
token_data.consumed_at = datetime.now(timezone.utc)`. -/
def markConsumed (now : Nat) (td : TokenData) : TokenData :=
  ⟨td.token, td.user_id, td.product_id, td.amount, td.expires_at, td.agreement_id,
    true, some now⟩

/-- Result dict of `verify_token`. -/
structure VerifyResult where
  valid : Bool
  reason : Option TokenReason
  product_id : Option String
  amount : Option Rat
  expires_at : Option Nat
  agreement_id : Option String
deriving DecidableEq, Repr

/-- Result dict of `consume_token`. -/
structure ConsumeResult where
  consumed : Bool
  reason : Option TokenReason
  agreement_id : Option String
  amount : Option Rat
  product_id : Option String
deriving DecidableEq, Repr

/-- Result dict of `create_token`. -/
structure CreateTokenResult where
  token : String
  expires_at : Nat
deriving DecidableEq, Repr

/-- `FilePurchaseTokenStore.verify_token` (lines 258-279; the in-memory
implementation at lines 120-141 is textually identical). -/
def verify_token (now : Nat) (ts : List TokenData) (user_id tok : String) : VerifyResult :=
  match findToken ts tok with
  | none => ⟨false, some .notFound, none, none, none, none⟩
  | some td =>
    if td.user_id ≠ user_id then ⟨false, some .notOwner, none, none, none, none⟩
    else if td.consumed then ⟨false, some .alreadyConsumed, none, none, none, none⟩
    else if now > td.expires_at then ⟨false, some .expired, none, none, none, none⟩
    else ⟨true, none, some td.product_id, some td.amount, some td.expires_at,
      some td.agreement_id⟩

/-- `FilePurchaseTokenStore.create_token` (lines 227-256): builds a fresh
unconsumed record expiring at `now + ttl_minutes` minutes, stores it under
the generated token string `tok`, and saves. -/
def create_token (now : Nat) (st : TokenStoreState) (user_id product_id : String)
    (amount : Rat) (agreement_id : String) (ttl_minutes : Nat) (tok : String) :
    CreateTokenResult × TokenStoreState :=
  let expires := now + ttl_minutes * 60
  let td : TokenData := ⟨tok, user_id, product_id, amount, expires, agreement_id, false, none⟩
  (⟨tok, expires⟩, ⟨insertToken st.tokens td, st.writes + 1⟩)

/-- `FilePurchaseTokenStore.consume_token` (lines 281-298): re-runs
`verify_token`; on failure returns the verify reason without touching the
store; on success flips `consumed`, stamps `consumed_at` and saves.
The inner `none` branch is unreachable: a valid verification implies the
token is present (the Python `self._tokens[token]` cannot raise there). -/
def consume_token (now : Nat) (st : TokenStoreState) (user_id tok : String) :
    ConsumeResult × TokenStoreState :=
  let v := verify_token now st.tokens user_id tok
  if v.valid then
    match findToken st.tokens tok with
    | none => (⟨false, none, none, none, none⟩, st)
    | some td =>
      (⟨true, none, some td.agreement_id, some td.amount, some td.product_id⟩,
        ⟨updateTokenFirst st.tokens tok (markConsumed now), st.writes + 1⟩)
  else
    (⟨false, v.reason, none, none, none⟩, st)

/-! ### Token store lemmas -/

theorem findToken_insertToken (ts : List TokenData) (td : TokenData) :
    findToken (insertToken ts td) td.token = some td := by
  induction ts with
  | nil => simp [findToken, insertToken]
  | cons t ts ih =>
    by_cases h : t.token = td.token
    · simp [insertToken, h, findToken]
    · simp only [insertToken, if_neg h]
      unfold findToken
      rw [List.find?_cons_of_neg _ (by simp [h])]
      exact ih

theorem findToken_updateTokenFirst (ts : List TokenData) (tok : String)
    (f : TokenData → TokenData) (hf : ∀ td, (f td).token = td.token) :
    findToken (updateTokenFirst ts tok f) tok = (findToken ts tok).map f := by
  induction ts with
  | nil => simp [findToken, updateTokenFirst]
  | cons t ts ih =>
    by_cases h : t.token = tok
    · unfold updateTokenFirst findToken
      rw [if_pos h, List.find?_cons_of_pos _ (by simp [hf, h]),
        List.find?_cons_of_pos _ (by simp [h])]
      rfl
    · unfold updateTokenFirst findToken
      rw [if_neg h, List.find?_cons_of_neg _ (by simp [h]),
        List.find?_cons_of_neg _ (by simp [h])]
      exact ih

theorem verify_token_valid_iff (now : Nat) (ts : List TokenData) (uid tok : String) :
    (verify_token now ts uid tok).valid = true ↔
      ∃ td, findToken ts tok = some td ∧ td.user_id = uid ∧ td.consumed = false ∧
        now ≤ td.expires_at := by
  unfold verify_token
  cases h : findToken ts tok with
  | none => simp
  | some td =>
    constructor
    · intro hv
      refine ⟨td, rfl, ?_⟩
      by_cases h1 : td.user_id ≠ uid
      · simp [h1] at hv
      · by_cases h2 : td.consumed
        · simp [h1, h2] at hv
        · by_cases h3 : now > td.expires_at
          · simp [h1, h2, h3] at hv
          · exact ⟨not_not.mp h1, Bool.eq_false_iff.mpr h2, Nat.le_of_not_lt h3⟩
    · rintro ⟨td', htd', h1, h2, h3⟩
      rw [Option.some.injEq] at htd'
      subst htd'
      simp [h1, h2, Nat.not_lt.mpr h3]

theorem verify_token_of_consumed (now : Nat) (ts : List TokenData) (uid tok : String)
    (td : TokenData) (h : findToken ts tok = some td) (huid : td.user_id = uid)
    (hc : td.consumed = true) :
    verify_token now ts uid tok = ⟨false, some .alreadyConsumed, none, none, none, none⟩ := by
  unfold verify_token
  rw [h]
  simp [huid, hc]

theorem consume_token_of_invalid (now : Nat) (st : TokenStoreState) (uid tok : String)
    (h : (verify_token now st.tokens uid tok).valid = false) :
    consume_token now st uid tok =
      (⟨false, (verify_token now st.tokens uid tok).reason, none, none, none⟩, st) := by
  unfold consume_token
  simp [h]

theorem consume_token_of_valid (now : Nat) (st : TokenStoreState) (uid tok : String)
    (td : TokenData) (hv : (verify_token now st.tokens uid tok).valid = true)
    (hfind : findToken st.tokens tok = some td) :
    consume_token now st uid tok =
      (⟨true, none, some td.agreement_id, some td.amount, some td.product_id⟩,
        ⟨updateTokenFirst st.tokens tok (markConsumed now), st.writes + 1⟩) := by
  unfold consume_token
  simp [hv, hfind]

/-! ### Claims C1, C6, C10 -/

/-- C1: for a token that verifies as valid for its owner, two sequential
`consume_token` calls yield exactly one `consumed=true` result and one
`consumed=false` result whose reason is "already consumed"; the second call
leaves the store unchanged, and after both calls the stored record still has
`consumed = true` (the flag never transitions back to `false`). -/
theorem consume_token_single_use (now1 now2 : Nat) (st : TokenStoreState)
    (uid tok : String) (h : (verify_token now1 st.tokens uid tok).valid = true) :
    (consume_token now1 st uid tok).fst.consumed = true ∧
    (consume_token now2 (consume_token now1 st uid tok).snd uid tok).fst.consumed = false ∧
    (consume_token now2 (consume_token now1 st uid tok).snd uid tok).fst.reason =
      some TokenReason.alreadyConsumed ∧
    (consume_token now2 (consume_token now1 st uid tok).snd uid tok).snd =
      (consume_token now1 st uid tok).snd ∧
    ∀ td, findToken (consume_token now2 (consume_token now1 st uid tok).snd uid tok).snd.tokens
        tok = some td → td.consumed = true := by
  obtain ⟨td, hfind, huid, hcons, hexp⟩ := (verify_token_valid_iff now1 st.tokens uid tok).mp h
  have h1 := consume_token_of_valid now1 st uid tok td h hfind
  have hfind1 : findToken (consume_token now1 st uid tok).snd.tokens tok =
      some (markConsumed now1 td) := by
    rw [h1]
    have := findToken_updateTokenFirst st.tokens tok (markConsumed now1) (fun _ => rfl)
    simpa [hfind] using this
  have huid1 : (markConsumed now1 td).user_id = uid := huid
  have hver2 := verify_token_of_consumed now2 (consume_token now1 st uid tok).snd.tokens uid tok
    (markConsumed now1 td) hfind1 huid1 rfl
  have hinv : (verify_token now2 (consume_token now1 st uid tok).snd.tokens uid tok).valid
      = false := by rw [hver2]
  have h2 := consume_token_of_invalid now2 (consume_token now1 st uid tok).snd uid tok hinv
  refine ⟨by rw [h1], by rw [h2], ?_, by rw [h2], ?_⟩
  · rw [h2, hver2]
  · intro td' htd'
    rw [h2] at htd'
    rw [hfind1] at htd'
    cases htd'
    rfl

/-- C1 witness: a concrete valid token, consumed twice. -/
theorem consume_token_single_use_witness :
    (consume_token 50 ⟨[⟨"t1", "u1", "p1", 425, 100, "a1", false, none⟩], 0⟩ "u1" "t1").fst.consumed
      = true ∧
    (consume_token 70 (consume_token 50
        ⟨[⟨"t1", "u1", "p1", 425, 100, "a1", false, none⟩], 0⟩ "u1" "t1").snd
        "u1" "t1").fst.reason = some TokenReason.alreadyConsumed := by
  have h := consume_token_single_use 50 70
    ⟨[⟨"t1", "u1", "p1", 425, 100, "a1", false, none⟩], 0⟩ "u1" "t1" (by decide)
  exact ⟨h.1, h.2.2.1⟩

/-- C6: `verify_token` is valid exactly when the token exists, belongs to the
caller, is unconsumed and `now ≤ expires_at`; each failure mode reports its
specific reason (checked in the order: not found, not owner, already
consumed, expired); and a token created with `ttl_minutes = 0` reports
`expired` on any strictly later verify call. -/
theorem verify_token_correct (now : Nat) (ts : List TokenData) (uid tok : String) :
    ((verify_token now ts uid tok).valid = true ↔
      ∃ td, findToken ts tok = some td ∧ td.user_id = uid ∧ td.consumed = false ∧
        now ≤ td.expires_at) ∧
    (findToken ts tok = none →
      (verify_token now ts uid tok).reason = some TokenReason.notFound) ∧
    (∀ td, findToken ts tok = some td → td.user_id ≠ uid →
      (verify_token now ts uid tok).reason = some TokenReason.notOwner) ∧
    (∀ td, findToken ts tok = some td → td.user_id = uid → td.consumed = true →
      (verify_token now ts uid tok).reason = some TokenReason.alreadyConsumed) ∧
    (∀ td, findToken ts tok = some td → td.user_id = uid → td.consumed = false →
      td.expires_at < now →
      (verify_token now ts uid tok).reason = some TokenReason.expired) ∧
    (∀ st : TokenStoreState, ∀ nowC : Nat, ∀ pid : String, ∀ amount : Rat, ∀ agrId : String,
      nowC < now →
      (verify_token now (create_token nowC st uid pid amount agrId 0 tok).snd.tokens
          uid tok).valid = false ∧
      (verify_token now (create_token nowC st uid pid amount agrId 0 tok).snd.tokens
          uid tok).reason = some TokenReason.expired) := by
  refine ⟨verify_token_valid_iff now ts uid tok, ?_, ?_, ?_, ?_, ?_⟩
  · intro h
    unfold verify_token
    rw [h]
  · intro td h hne
    unfold verify_token
    rw [h]
    simp [hne]
  · intro td h huid hc
    unfold verify_token
    rw [h]
    simp [huid, hc]
  · intro td h huid hc hexp
    unfold verify_token
    rw [h]
    simp [huid, hc, hexp]
  · intro st nowC pid amount agrId hlt
    have hfind : findToken (create_token nowC st uid pid amount agrId 0 tok).snd.tokens tok =
        some ⟨tok, uid, pid, amount, nowC + 0 * 60, agrId, false, none⟩ := by
      unfold create_token
      exact findToken_insertToken st.tokens _
    constructor
    · unfold verify_token
      rw [hfind]
      simp [hlt]
    · unfold verify_token
      rw [hfind]
      simp [hlt]

/-- C6 witness: a token created at time 10 with `ttl_minutes = 0` verifies as
expired at time 11. -/
theorem verify_token_correct_witness :
    (verify_token 11 (create_token 10 ⟨[], 0⟩ "u1" "p1" 425 "a1" 0 "t1").snd.tokens
        "u1" "t1").valid = false ∧
    (verify_token 11 (create_token 10 ⟨[], 0⟩ "u1" "p1" 425 "a1" 0 "t1").snd.tokens
        "u1" "t1").reason = some TokenReason.expired := by
  have h := (verify_token_correct 11 [] "u1" "t1").2.2.2.2.2 ⟨[], 0⟩ 10 "p1" 425 "a1"
    (by decide)
  exact h

/-- C10: `consume_token` on a token that fails verification returns
`consumed = false` carrying the verify reason and leaves the whole store
state (every token record and the persistence-write counter) unchanged. -/
theorem consume_token_invalid_frame (now : Nat) (st : TokenStoreState) (uid tok : String)
    (h : (verify_token now st.tokens uid tok).valid = false) :
    (consume_token now st uid tok).fst.consumed = false ∧
    (consume_token now st uid tok).fst.reason =
      (verify_token now st.tokens uid tok).reason ∧
    (consume_token now st uid tok).snd = st ∧
    (consume_token now st uid tok).snd.tokens = st.tokens ∧
    (consume_token now st uid tok).snd.writes = st.writes := by
  have h1 := consume_token_of_invalid now st uid tok h
  exact ⟨by rw [h1], by rw [h1], by rw [h1], by rw [h1], by rw [h1]⟩

/-- C10 witness: consuming an already consumed token changes nothing. -/
theorem consume_token_invalid_frame_witness :
    (consume_token 50 ⟨[⟨"t1", "u1", "p1", 425, 100, "a1", true, some 40⟩], 3⟩
        "u1" "t1").snd = ⟨[⟨"t1", "u1", "p1", 425, 100, "a1", true, some 40⟩], 3⟩ := by
  exact (consume_token_invalid_frame 50
    ⟨[⟨"t1", "u1", "p1", 425, 100, "a1", true, some 40⟩], 3⟩ "u1" "t1" (by decide)).2.2.1

/-! ## Negotiation data model (`backend/models/negotiation.py`) -/

/-- Mirror of the `sender_role` Literal type. -/
inductive SenderRole where
  | USER
  | ADMIN
deriving DecidableEq, Repr

/-- Mirror of the message `kind` Literal type. -/
inductive MsgKind where
  | OFFER
  | COUNTER
  | NOTE
  | ACCEPT
  | CLOSE
deriving DecidableEq, Repr

/-- Mirror of the thread `status` Literal type. -/
inductive NegStatus where
  | OPEN
  | ACCEPTED
  | CLOSED
deriving DecidableEq, Repr

/-- Mirror of the agreement `status` Literal type. -/
inductive AgreementStatus where
  | ACTIVE
  | USED
  | EXPIRED
  | CANCELLED
deriving DecidableEq, Repr

/-- Mirror of the pydantic model `NegotiationMessage`. -/
structure NegotiationMessage where
  message_id : String
  sender_role : SenderRole
  kind : MsgKind
  amount : Option Rat
  text : Option String
  created_at : Nat
deriving DecidableEq, Repr

/-- Mirror of the pydantic model `NegotiationThread`. -/
structure NegotiationThread where
  negotiation_id : String
  user_id : String
  user_email : String
  user_name : String
  product_id : String
  product_title : String
  product_price : Rat
  status : NegStatus
  created_at : Nat
  updated_at : Nat
  last_activity_at : Nat
  messages : List NegotiationMessage
  accepted_agreement_id : Option String
deriving DecidableEq, Repr

/-- Mirror of the pydantic model `NegotiationThreadSummary`. -/
structure NegotiationThreadSummary where
  negotiation_id : String
  user_id : String
  user_email : String
  user_name : String
  product_id : String
  product_title : String
  product_price : Rat
  status : NegStatus
  created_at : Nat
  last_activity_at : Nat
  last_message_preview : Option String
  last_amount : Option Rat
  message_count : Nat
deriving DecidableEq, Repr

/-- Mirror of the pydantic model `NegotiationAgreement`. -/
structure NegotiationAgreement where
  agreement_id : String
  negotiation_id : String
  user_id : String
  product_id : String
  product_title : String
  accepted_amount : Rat
  status : AgreementStatus
  purchase_token : String
  purchase_token_expires_at : Nat
  created_at : Nat
  used_at : Option Nat
deriving DecidableEq, Repr

/-! ## Negotiation store (`backend/services/negotiation_store.py`,
class `FileNegotiationStore`; the in-memory class differs only in the
save calls) -/

/-- Dict lookup `self._threads.get(negotiation_id)`. -/
def findThread (ts : List NegotiationThread) (nid : String) : Option NegotiationThread :=
  ts.find? (fun t => t.negotiation_id == nid)

/-- Dict assignment `self._threads[negotiation_id] = t`. -/
def insertThread : List NegotiationThread → NegotiationThread → List NegotiationThread
  | [], t => [t]
  | u :: ts, t =>
    if u.negotiation_id = t.negotiation_id then t :: ts else u :: insertThread ts t

/-- In-place mutation of the thread stored under `negotiation_id = nid`. -/
def updateThreadFirst :
    List NegotiationThread → String → (NegotiationThread → NegotiationThread) →
    List NegotiationThread
  | [], _, _ => []
  | u :: ts, nid, f =>
    if u.negotiation_id = nid then f u :: ts else u :: updateThreadFirst ts nid f

/-- Dict lookup `self._agreements.get(agreement_id)`. -/
def findAgreement (ags : List NegotiationAgreement) (aid : String) :
    Option NegotiationAgreement :=
  ags.find? (fun a => a.agreement_id == aid)

/-- Dict assignment `self._agreements[agreement_id] = a`. -/
def insertAgreement : List NegotiationAgreement → NegotiationAgreement →
    List NegotiationAgreement
  | [], a => [a]
  | b :: ags, a =>
    if b.agreement_id = a.agreement_id then a :: ags else b :: insertAgreement ags a

/-- The thread mutation performed by `add_message`: append the new message
and refresh `updated_at` / `last_activity_at`. -/
def appendMsgMut (now : Nat) (m : NegotiationMessage) (t : NegotiationThread) :
    NegotiationThread :=
  { t with messages := t.messages ++ [m], updated_at := now, last_activity_at := now }

/-- `FileNegotiationStore.add_message` (lines 494-521): returns `None` when
the thread does not exist, otherwise appends the message and returns the
updated thread. -/
def ns_add_message (now : Nat) (threads : List NegotiationThread) (nid : String)
    (sender_role : SenderRole) (kind : MsgKind) (amount : Option Rat)
    (text : Option String) (mid : String) :
    Option NegotiationThread × List NegotiationThread :=
  match findThread threads nid with
  | none => (none, threads)
  | some t =>
    let m : NegotiationMessage := ⟨mid, sender_role, kind, amount, text, now⟩
    (some (appendMsgMut now m t), updateThreadFirst threads nid (appendMsgMut now m))

/-- The thread mutation performed by `set_status`. -/
def setStatusMut (now : Nat) (st : NegStatus) (t : NegotiationThread) :
    NegotiationThread :=
  { t with status := st, updated_at := now }

/-- `FileNegotiationStore.set_status` (lines 523-535): no transition table is
consulted; any requested status is applied to any existing thread. -/
def ns_set_status (now : Nat) (threads : List NegotiationThread) (nid : String)
    (st : NegStatus) : Option NegotiationThread × List NegotiationThread :=
  match findThread threads nid with
  | none => (none, threads)
  | some t =>
    (some (setStatusMut now st t), updateThreadFirst threads nid (setStatusMut now st))

/-- The thread mutation `thread.accepted_agreement_id = agreement_id`. -/
def setAgreementIdMut (aid : String) (t : NegotiationThread) : NegotiationThread :=
  { t with accepted_agreement_id := some aid }

/-- `FileNegotiationStore.create_agreement_on_accept` (lines 537-570): builds
an ACTIVE agreement from the thread snapshot with a fresh id `agrId` and
token `ptok`, stores it, and links it from the thread. -/
def ns_create_agreement_on_accept (now : Nat) (threads : List NegotiationThread)
    (agreements : List NegotiationAgreement) (nid : String) (accepted_amount : Rat)
    (ttl_minutes : Nat) (agrId ptok : String) :
    Option NegotiationAgreement × List NegotiationThread × List NegotiationAgreement :=
  match findThread threads nid with
  | none => (none, threads, agreements)
  | some t =>
    let agreement : NegotiationAgreement :=
      ⟨agrId, nid, t.user_id, t.product_id, t.product_title, accepted_amount,
        .ACTIVE, ptok, now + ttl_minutes * 60, now, none⟩
    (some agreement, updateThreadFirst threads nid (setAgreementIdMut agrId),
      insertAgreement agreements agreement)

/-- `FileNegotiationStore.create_thread` (lines 431-473): a new OPEN thread
seeded with the initiating USER OFFER message. -/
def ns_create_thread (now : Nat) (threads : List NegotiationThread)
    (user_id user_email user_name product_id product_title : String)
    (product_price initial_offer_amount : Rat) (text : Option String)
    (nid mid : String) : NegotiationThread × List NegotiationThread :=
  let m : NegotiationMessage := ⟨mid, .USER, .OFFER, some initial_offer_amount, text, now⟩
  let t : NegotiationThread :=
    ⟨nid, user_id, user_email, user_name, product_id, product_title, product_price,
      .OPEN, now, now, now, [m], none⟩
  (t, insertThread threads t)

/-- The preview computed by `_to_summary`:
`last_message.text[:50] if last_message and last_message.text else None`
(an empty text string is falsy in Python and yields `None`). -/
def previewOf (ms : List NegotiationMessage) : Option String :=
  match ms.getLast? with
  | none => none
  | some m =>
    match m.text with
    | none => none
    | some s => if s.isEmpty then none else some (s.take 50)

/-- The reverse scan of `_to_summary`: the amount of the most recent message
whose `amount` is not `None`. -/
def lastAmountOf (ms : List NegotiationMessage) : Option Rat :=
  (ms.reverse.find? (fun m => m.amount.isSome)).bind (fun m => m.amount)

/-- `FileNegotiationStore._to_summary` (lines 585-607). -/
def to_summary (t : NegotiationThread) : NegotiationThreadSummary :=
  ⟨t.negotiation_id, t.user_id, t.user_email, t.user_name, t.product_id,
    t.product_title, t.product_price, t.status, t.created_at, t.last_activity_at,
    previewOf t.messages, lastAmountOf t.messages, t.messages.length⟩

/-- The comparison realised by Python
`sorted(summaries, key=lambda x: x.last_activity_at, reverse=True)`:
`a` may precede `b` when `b.last_activity_at <= a.last_activity_at`.  Python
`sorted` is a stable sort, as is `List.insertionSort` with this relation, so
the two agree element for element. -/
def summaryDescLe (a b : NegotiationThreadSummary) : Prop :=
  b.last_activity_at ≤ a.last_activity_at

instance : DecidableRel summaryDescLe := fun a b =>
  inferInstanceAs (Decidable (b.last_activity_at ≤ a.last_activity_at))

instance : IsTotal NegotiationThreadSummary summaryDescLe :=
  ⟨fun a b => (Nat.le_total a.last_activity_at b.last_activity_at).symm⟩

instance : IsTrans NegotiationThreadSummary summaryDescLe :=
  ⟨fun _ _ _ hab hbc => Nat.le_trans hbc hab⟩

/-- `FileNegotiationStore.list_threads_for_user` (lines 475-480): summaries
of the user's threads, sorted by `last_activity_at` descending. -/
def list_threads_for_user (threads : List NegotiationThread) (uid : String) :
    List NegotiationThreadSummary :=
  List.insertionSort summaryDescLe
    ((threads.filter (fun t => t.user_id == uid)).map to_summary)

/-- `FileNegotiationStore.list_threads_for_admin` (lines 482-489): same with
an optional status filter instead of the owner filter. -/
def list_threads_for_admin (threads : List NegotiationThread)
    (status : Option NegStatus) : List NegotiationThreadSummary :=
  List.insertionSort summaryDescLe
    ((threads.filter (fun t =>
      match status with
      | none => true
      | some st => t.status == st)).map to_summary)

/-! ## Orders and entitlements (`backend/models/order.py`,
`backend/services/order_store.py`, `backend/services/entitlements.py`) -/

/-- Mirror of the `OrderStatus` enum. -/
inductive OrderStatus where
  | PENDING
  | COMPLETED
  | REFUNDED
  | CANCELLED
deriving DecidableEq, Repr

/-- Mirror of the `Order` pydantic model (fields used by entitlements). -/
structure Order where
  order_id : String
  user_id : String
  order_total : Rat
  status : OrderStatus
  created_at : Nat
deriving DecidableEq, Repr

/-- Ordering used by `InMemoryOrderStore.list_orders_for_user`:
`sorted(orders, key=lambda o: o.created_at, reverse=True)`. -/
def orderDescLe (a b : Order) : Prop := b.created_at ≤ a.created_at

instance : DecidableRel orderDescLe := fun a b =>
  inferInstanceAs (Decidable (b.created_at ≤ a.created_at))

instance : IsTotal Order orderDescLe :=
  ⟨fun a b => (Nat.le_total a.created_at b.created_at).symm⟩

instance : IsTrans Order orderDescLe :=
  ⟨fun _ _ _ hab hbc => Nat.le_trans hbc hab⟩

/-- `InMemoryOrderStore.list_orders_for_user`: the orders whose `user_id`
matches, newest first. -/
def list_orders_for_user (orders : List Order) (uid : String) : List Order :=
  List.insertionSort orderDescLe (orders.filter (fun o => o.user_id == uid))

/-- `NYP_UNLOCK_THRESHOLD` (entitlements.py line 25). -/
def NYP_UNLOCK_THRESHOLD : Rat := 1000

/-- `get_user_total_spend` (entitlements.py lines 36-62): sum of
`order_total` over the user's orders with status COMPLETED. -/
def get_user_total_spend (uid : String) (orders : List Order) : Rat :=
  (((list_orders_for_user orders uid).filter
      (fun o => o.status == .COMPLETED)).map Order.order_total).sum

/-- `has_unlocked_threshold` (lines 65-87). -/
def has_unlocked_threshold (uid : String) (threshold_amount : Rat)
    (orders : List Order) : Bool :=
  threshold_amount ≤ get_user_total_spend uid orders

/-- `has_unlocked_nyp` (lines 90-103). -/
def has_unlocked_nyp (uid : String) (orders : List Order) : Bool :=
  has_unlocked_threshold uid NYP_UNLOCK_THRESHOLD orders

/-- The user document fields consulted by the entitlement check; a missing
document is `none` and `user_record.get("nyp_override_enabled", False)`
defaults to `false`. -/
structure UserRecord where
  nyp_override_enabled : Bool
deriving DecidableEq, Repr

/-- Truthiness of `user_record and user_record.get("nyp_override_enabled", False)`. -/
def nypOverrideEnabled : Option UserRecord → Bool
  | none => false
  | some u => u.nyp_override_enabled

/-- `check_nyp_eligibility` (entitlements.py lines 157-171). -/
def check_nyp_eligibility (uid : String) (userRec : Option UserRecord)
    (orders : List Order) : Bool :=
  if nypOverrideEnabled userRec then true else has_unlocked_nyp uid orders

/-! ## Server endpoints (`backend/server.py`) -/

/-- The stable status categories of the request boundary (HTTPException
status codes 404 / 403 / 400, plus a category for unreachable internal
failures). -/
inductive ApiError where
  | notFound
  | forbidden
  | badRequest
  | serverError
deriving DecidableEq, Repr

/-- Whole-system state: the negotiation store's threads and agreements plus
the purchase token store. -/
structure SysState where
  threads : List NegotiationThread
  agreements : List NegotiationAgreement
  tokenStore : TokenStoreState
deriving DecidableEq, Repr

/-- The catalog fields read by `create_negotiation`
(`product.get("title")`, `product.get("price", 0)`,
`product.get("name_your_price", False)`). -/
structure ProductInfo where
  title : String
  price : Rat
  name_your_price : Bool
deriving DecidableEq, Repr

/-- Response of a successful `POST /negotiations`. -/
structure CreateNegotiationResponse where
  negotiation_id : String
  status : NegStatus
  created_at : Nat
deriving DecidableEq, Repr

/-- `create_negotiation` (server.py lines 1839-1898): 403 when the NYP
eligibility check fails, 404 when the product is unknown, 400 when the
product does not accept Name-Your-Price, else creates the thread.  The user
record, the user's orders and the product lookup result are passed in as
the values the database would return; `nid` / `mid` are the generated uuids. -/
def create_negotiation (now : Nat) (s : SysState) (uid user_email user_name : String)
    (userRec : Option UserRecord) (orders : List Order) (product : Option ProductInfo)
    (product_id : String) (offer_amount : Rat) (text : Option String) (nid mid : String) :
    Except ApiError CreateNegotiationResponse × SysState :=
  if ¬ check_nyp_eligibility uid userRec orders then (.error .forbidden, s)
  else
    match product with
    | none => (.error .notFound, s)
    | some p =>
      if ¬ p.name_your_price then (.error .badRequest, s)
      else
        let r := ns_create_thread now s.threads uid user_email user_name product_id
          p.title p.price offer_amount text nid mid
        (.ok ⟨r.fst.negotiation_id, r.fst.status, r.fst.created_at⟩,
          { s with threads := r.snd })

/-- `add_user_message` (server.py lines 1955-1988): 404 unknown thread, 403
not the owner, 400 when the thread is not OPEN, when the kind is not
OFFER/NOTE, or when an OFFER carries no amount; else appends the message and
reports the new message count.  The `none` fallback of the store call is
unreachable (the thread was just found). -/
def add_user_message (now : Nat) (s : SysState) (uid nid : String) (kind : MsgKind)
    (amount : Option Rat) (text : Option String) (mid : String) :
    Except ApiError Nat × SysState :=
  match findThread s.threads nid with
  | none => (.error .notFound, s)
  | some t =>
    if t.user_id ≠ uid then (.error .forbidden, s)
    else if t.status ≠ .OPEN then (.error .badRequest, s)
    else if kind ≠ .OFFER ∧ kind ≠ .NOTE then (.error .badRequest, s)
    else if kind = .OFFER ∧ amount = none then (.error .badRequest, s)
    else
      let r := ns_add_message now s.threads nid .USER kind amount text mid
      match r.fst with
      | none => (.error .serverError, s)
      | some t2 => (.ok t2.messages.length, { s with threads := r.snd })

/-- `admin_counter_offer` (server.py lines 2173-2213): 404 unknown thread,
400 when not OPEN, else appends an ADMIN COUNTER message. -/
def admin_counter_offer (now : Nat) (s : SysState) (nid : String) (amount : Rat)
    (text : Option String) (mid : String) : Except ApiError Nat × SysState :=
  match findThread s.threads nid with
  | none => (.error .notFound, s)
  | some t =>
    if t.status ≠ .OPEN then (.error .badRequest, s)
    else
      let r := ns_add_message now s.threads nid .ADMIN .COUNTER (some amount) text mid
      match r.fst with
      | none => (.error .serverError, s)
      | some t2 => (.ok t2.messages.length, { s with threads := r.snd })

/-- Response of a successful `POST /admin/negotiations/{id}/accept`. -/
structure AcceptResponse where
  agreement_id : String
  accepted_amount : Rat
  expires_at : Nat
deriving DecidableEq, Repr

/-- `admin_accept_offer` (server.py lines 2216-2278): 404 unknown thread,
400 when not OPEN; otherwise appends an ADMIN ACCEPT message, creates the
agreement, sets the thread status to ACCEPTED and creates a purchase token
in the token store — four separate store mutations, each of which saves its
own file.  `mid`, `agrId`, `ptok` (the agreement's embedded token) and
`ptok2` (the token minted in the purchase token store) are the generated
identifiers. -/
def admin_accept_offer (now : Nat) (s : SysState) (nid : String) (amount : Rat)
    (ttl_minutes : Nat) (text : Option String) (mid agrId ptok ptok2 : String) :
    Except ApiError AcceptResponse × SysState :=
  match findThread s.threads nid with
  | none => (.error .notFound, s)
  | some t =>
    if t.status ≠ .OPEN then (.error .badRequest, s)
    else
      let r1 := ns_add_message now s.threads nid .ADMIN .ACCEPT (some amount) text mid
      let r2 := ns_create_agreement_on_accept now r1.snd s.agreements nid amount
        ttl_minutes agrId ptok
      match r2.fst with
      | none => (.error .serverError, s)
      | some agreement =>
        let r3 := ns_set_status now r2.snd.fst nid .ACCEPTED
        let r4 := create_token now s.tokenStore t.user_id t.product_id amount agrId
          ttl_minutes ptok2
        (.ok ⟨agreement.agreement_id, amount, agreement.purchase_token_expires_at⟩,
          ⟨r3.snd, r2.snd.snd, r4.snd⟩)

/-- `admin_close_negotiation` (server.py lines 2281-2317): 404 unknown
thread, 400 only when the thread is already CLOSED (an ACCEPTED thread
passes this check); otherwise appends an ADMIN CLOSE message and sets the
status to CLOSED. -/
def admin_close_negotiation (now : Nat) (s : SysState) (nid : String)
    (text : Option String) (mid : String) : Except ApiError Unit × SysState :=
  match findThread s.threads nid with
  | none => (.error .notFound, s)
  | some t =>
    if t.status = .CLOSED then (.error .badRequest, s)
    else
      let r1 := ns_add_message now s.threads nid .ADMIN .CLOSE none text mid
      let r2 := ns_set_status now r1.snd nid .CLOSED
      (.ok (), ⟨r2.snd, s.agreements, s.tokenStore⟩)

/-- System-level view of `consume_token`: the purchase token store neither
reads nor writes threads or agreements, and no caller in the repository adds
further work around `consume_token` (the only reference to marking an
agreement USED is the TODO comment at server.py line 2082). -/
def consume_token_sys (now : Nat) (s : SysState) (uid tok : String) :
    ConsumeResult × SysState :=
  let r := consume_token now s.tokenStore uid tok
  (r.fst, ⟨s.threads, s.agreements, r.snd⟩)

/-! ### Thread store lemmas -/

theorem findThread_insertThread (ts : List NegotiationThread) (t : NegotiationThread) :
    findThread (insertThread ts t) t.negotiation_id = some t := by
  induction ts with
  | nil => simp [findThread, insertThread]
  | cons u ts ih =>
    by_cases h : u.negotiation_id = t.negotiation_id
    · simp [insertThread, h, findThread]
    · simp only [insertThread, if_neg h]
      unfold findThread
      rw [List.find?_cons_of_neg _ (by simp [h])]
      exact ih

theorem findThread_updateThreadFirst (ts : List NegotiationThread) (nid : String)
    (f : NegotiationThread → NegotiationThread)
    (hf : ∀ t, (f t).negotiation_id = t.negotiation_id) :
    findThread (updateThreadFirst ts nid f) nid = (findThread ts nid).map f := by
  induction ts with
  | nil => simp [findThread, updateThreadFirst]
  | cons u ts ih =>
    by_cases h : u.negotiation_id = nid
    · unfold updateThreadFirst findThread
      rw [if_pos h, List.find?_cons_of_pos _ (by simp [hf, h]),
        List.find?_cons_of_pos _ (by simp [h])]
      rfl
    · unfold updateThreadFirst findThread
      rw [if_neg h, List.find?_cons_of_neg _ (by simp [h]),
        List.find?_cons_of_neg _ (by simp [h])]
      exact ih

/-! ### Claim C2 -/

/-- Sample ACTIVE agreement used in concrete counterexamples. -/
def exAgreement : NegotiationAgreement :=
  ⟨"a1", "n1", "u1", "p1", "Ring", 425, .ACTIVE, "ptok1", 100, 10, none⟩

/-- Sample unconsumed token tied to `exAgreement`. -/
def exToken : TokenData := ⟨"t1", "u1", "p1", 425, 100, "a1", false, none⟩

/-- C2 counterexample: at time 50 the owner consumes the valid token `t1`
whose parent agreement `a1` is ACTIVE; the consume call reports
`consumed = true` but the parent agreement's status is still ACTIVE, not
USED — no code in the repository ever marks an agreement USED. -/
theorem consume_token_agreement_counterexample :
    (consume_token_sys 50 ⟨[], [exAgreement], ⟨[exToken], 0⟩⟩ "u1" "t1").fst.consumed = true ∧
    (findAgreement (consume_token_sys 50 ⟨[], [exAgreement], ⟨[exToken], 0⟩⟩
        "u1" "t1").snd.agreements "a1").map NegotiationAgreement.status =
      some AgreementStatus.ACTIVE ∧
    AgreementStatus.ACTIVE ≠ AgreementStatus.USED := by
  refine ⟨?_, ?_, by decide⟩
  · rfl
  · rfl

/-- C2 amended: when `consume_token` succeeds on a valid token it sets the
token's `consumed` flag to true and stamps `consumed_at = now`, but it does
not touch the agreement store (or the thread store): the parent
NegotiationAgreement keeps whatever status it had, and nothing in the
repository ever sets an agreement's status to USED (only a TODO comment at
server.py line 2082 mentions doing so from a future payment webhook). -/
theorem consume_token_success_effects (now : Nat) (s : SysState) (uid tok : String)
    (td : TokenData) (hfind : findToken s.tokenStore.tokens tok = some td)
    (hv : (verify_token now s.tokenStore.tokens uid tok).valid = true) :
    (consume_token_sys now s uid tok).fst.consumed = true ∧
    findToken (consume_token_sys now s uid tok).snd.tokenStore.tokens tok =
      some (markConsumed now td) ∧
    (markConsumed now td).consumed = true ∧
    (markConsumed now td).consumed_at = some now ∧
    (consume_token_sys now s uid tok).snd.agreements = s.agreements ∧
    (consume_token_sys now s uid tok).snd.threads = s.threads := by
  have h1 := consume_token_of_valid now s.tokenStore uid tok td hv hfind
  have hfind2 : findToken (consume_token now s.tokenStore uid tok).snd.tokens tok =
      some (markConsumed now td) := by
    rw [h1]
    have := findToken_updateTokenFirst s.tokenStore.tokens tok (markConsumed now)
      (fun _ => rfl)
    simpa [hfind] using this
  refine ⟨?_, ?_, rfl, rfl, rfl, rfl⟩
  · unfold consume_token_sys
    rw [h1]
  · unfold consume_token_sys
    exact hfind2

/-- C2 amended witness: the concrete consume above, via the general theorem. -/
theorem consume_token_success_effects_witness :
    (consume_token_sys 50 ⟨[], [exAgreement], ⟨[exToken], 0⟩⟩ "u1" "t1").fst.consumed = true ∧
    (consume_token_sys 50 ⟨[], [exAgreement], ⟨[exToken], 0⟩⟩
        "u1" "t1").snd.agreements = [exAgreement] := by
  have h := consume_token_success_effects 50 ⟨[], [exAgreement], ⟨[exToken], 0⟩⟩
    "u1" "t1" exToken (by decide) (by decide)
  exact ⟨h.1, h.2.2.2.2.1⟩

/-! ### Claim C3 -/

/-- Sample thread in status ACCEPTED, with its seeded OFFER and the ACCEPT
message already recorded. -/
def exAcceptedThread : NegotiationThread :=
  ⟨"n1", "u1", "u1@x.com", "User One", "p1", "Ring", 500, .ACCEPTED, 10, 20, 20,
    [⟨"m1", .USER, .OFFER, some 400, none, 10⟩,
     ⟨"m2", .ADMIN, .ACCEPT, some 425, none, 20⟩], some "a1"⟩

/-- C3 counterexample: on a thread whose status is ACCEPTED, the admin close
endpoint succeeds — it appends a CLOSE message (message count grows from 2
to 3) and changes the status to CLOSED.  So an ACCEPTED thread's status and
message list do change again, and no `InvalidTransition` failure exists. -/
theorem accepted_thread_close_counterexample :
    (admin_close_negotiation 30 ⟨[exAcceptedThread], [exAgreement], ⟨[], 0⟩⟩
        "n1" none "m3").fst = Except.ok () ∧
    (findThread (admin_close_negotiation 30 ⟨[exAcceptedThread], [exAgreement], ⟨[], 0⟩⟩
        "n1" none "m3").snd.threads "n1").map NegotiationThread.status =
      some NegStatus.CLOSED ∧
    (findThread (admin_close_negotiation 30 ⟨[exAcceptedThread], [exAgreement], ⟨[], 0⟩⟩
        "n1" none "m3").snd.threads "n1").map
        (fun t => t.messages.length) = some 3 := by
  refine ⟨rfl, rfl, rfl⟩

/-- C3 amended: once a thread's status is ACCEPTED or CLOSED, the user
message endpoint, the admin counter endpoint and the admin accept endpoint
all fail and leave the state unchanged; but the admin close endpoint only
rejects threads that are already CLOSED, so an ACCEPTED thread can still be
closed (appending a CLOSE message and setting status CLOSED), and the
store-level `set_status` applies any requested status to any existing
thread without a transition check — there is no `InvalidTransition`
failure anywhere. -/
theorem terminal_thread_operations (now : Nat) (s : SysState) (nid : String)
    (t : NegotiationThread) (hfind : findThread s.threads nid = some t)
    (hst : t.status ≠ .OPEN) :
    (∀ uid kind amount text mid,
      (add_user_message now s uid nid kind amount text mid).snd = s ∧
      ∃ e, (add_user_message now s uid nid kind amount text mid).fst = .error e) ∧
    (∀ amount text mid,
      admin_counter_offer now s nid amount text mid = (.error .badRequest, s)) ∧
    (∀ amount ttl text mid agrId ptok ptok2,
      admin_accept_offer now s nid amount ttl text mid agrId ptok ptok2 =
        (.error .badRequest, s)) ∧
    (t.status = .CLOSED → ∀ text mid,
      admin_close_negotiation now s nid text mid = (.error .badRequest, s)) ∧
    (t.status = .ACCEPTED → ∀ text mid,
      (admin_close_negotiation now s nid text mid).fst = .ok () ∧
      (findThread (admin_close_negotiation now s nid text mid).snd.threads nid).map
          NegotiationThread.status = some .CLOSED ∧
      (findThread (admin_close_negotiation now s nid text mid).snd.threads nid).map
          (fun u => u.messages.length) = some (t.messages.length + 1)) ∧
    (∀ st2, (ns_set_status now s.threads nid st2).fst =
      some (setStatusMut now st2 t)) := by
  refine ⟨?_, ?_, ?_, ?_, ?_, ?_⟩
  · intro uid kind amount text mid
    unfold add_user_message
    rw [hfind]
    by_cases huid : t.user_id ≠ uid
    · simp [huid]
    · simp [huid, hst]
  · intro amount text mid
    unfold admin_counter_offer
    rw [hfind]
    simp [hst]
  · intro amount ttl text mid agrId ptok ptok2
    unfold admin_accept_offer
    rw [hfind]
    simp [hst]
  · intro hcl text mid
    unfold admin_close_negotiation
    rw [hfind]
    simp [hcl]
  · intro hacc text mid
    have hncl : t.status ≠ .CLOSED := by rw [hacc]; decide
    have hmsg : findThread (ns_add_message now s.threads nid .ADMIN .CLOSE none text
        mid).snd nid = some (appendMsgMut now ⟨mid, .ADMIN, .CLOSE, none, text, now⟩ t) := by
      unfold ns_add_message
      rw [hfind]
      have := findThread_updateThreadFirst s.threads nid
        (appendMsgMut now ⟨mid, .ADMIN, .CLOSE, none, text, now⟩) (fun _ => rfl)
      simpa [hfind] using this
    have hfin : findThread (admin_close_negotiation now s nid text mid).snd.threads nid =
        some (setStatusMut now .CLOSED
          (appendMsgMut now ⟨mid, .ADMIN, .CLOSE, none, text, now⟩ t)) := by
      unfold admin_close_negotiation
      rw [hfind]
      simp only [if_neg hncl]
      unfold ns_set_status
      rw [hmsg]
      have := findThread_updateThreadFirst
        (ns_add_message now s.threads nid .ADMIN .CLOSE none text mid).snd nid
        (setStatusMut now .CLOSED) (fun _ => rfl)
      simpa [hmsg] using this
    refine ⟨?_, ?_, ?_⟩
    · unfold admin_close_negotiation
      rw [hfind]
      simp [hncl]
    · rw [hfin]
      rfl
    · rw [hfin]
      simp [setStatusMut, appendMsgMut]
  · intro st2
    unfold ns_set_status
    rw [hfind]

/-- C3 amended witness: on the concrete ACCEPTED thread, counter fails but
close succeeds with status moving to CLOSED. -/
theorem terminal_thread_operations_witness :
    admin_counter_offer 30 ⟨[exAcceptedThread], [], ⟨[], 0⟩⟩ "n1" 450 none "m9" =
      (.error .badRequest, ⟨[exAcceptedThread], [], ⟨[], 0⟩⟩) ∧
    (admin_close_negotiation 30 ⟨[exAcceptedThread], [], ⟨[], 0⟩⟩ "n1" none "m9").fst =
      .ok () := by
  have h := terminal_thread_operations 30 ⟨[exAcceptedThread], [], ⟨[], 0⟩⟩ "n1"
    exAcceptedThread rfl (by decide)
  exact ⟨h.2.1 450 none "m9", (h.2.2.2.2.1 rfl none "m9").1⟩

/-! ### Claim C5: the commit sequence of the accept path

The FILE backend persists by whole-document saves.  During
`admin_accept_offer` the stores issue five `JsonStore.save` calls in order:

1. `_save_threads` at the end of `add_message` (the ACCEPT message);
2. `_save_agreements` inside `create_agreement_on_accept`;
3. `_save_threads` inside `create_agreement_on_accept` (the thread now
   carries `accepted_agreement_id` but is still OPEN);
4. `_save_threads` inside `set_status` (status ACCEPTED);
5. `_save_to_file` inside the token store's `create_token`.

`acceptWriteSequence` lists the on-disk state committed after each save; an
exception raised by save `k+1` aborts the remaining saves and leaves the
state committed after save `k`. -/
def acceptWriteSequence (now : Nat) (s : SysState) (nid : String) (amount : Rat)
    (ttl_minutes : Nat) (text : Option String) (mid agrId ptok ptok2 : String) :
    List SysState :=
  match findThread s.threads nid with
  | none => []
  | some t =>
    if t.status ≠ .OPEN then []
    else
      let r1 := ns_add_message now s.threads nid .ADMIN .ACCEPT (some amount) text mid
      let r2 := ns_create_agreement_on_accept now r1.snd s.agreements nid amount
        ttl_minutes agrId ptok
      let r3 := ns_set_status now r2.snd.fst nid .ACCEPTED
      let r4 := create_token now s.tokenStore t.user_id t.product_id amount agrId
        ttl_minutes ptok2
      [⟨r1.snd, s.agreements, s.tokenStore⟩,
       ⟨r1.snd, r2.snd.snd, s.tokenStore⟩,
       ⟨r2.snd.fst, r2.snd.snd, s.tokenStore⟩,
       ⟨r3.snd, r2.snd.snd, s.tokenStore⟩,
       ⟨r3.snd, r2.snd.snd, r4.snd⟩]

/-- The state committed on disk after the first `k` saves of the accept path
succeed and the next one fails (for `k` = 5 all saves succeeded). -/
def acceptCommittedAfter (k now : Nat) (s : SysState) (nid : String) (amount : Rat)
    (ttl_minutes : Nat) (text : Option String) (mid agrId ptok ptok2 : String) :
    SysState :=
  ((acceptWriteSequence now s nid amount ttl_minutes text mid agrId ptok
      ptok2).take k).getLastD s

/-- Whether the thread `nid` carries an ACCEPT message. -/
def hasAcceptMessage (s : SysState) (nid : String) : Bool :=
  match findThread s.threads nid with
  | none => false
  | some t => t.messages.any (fun m => m.kind == .ACCEPT)

/-- The agreements recorded for negotiation `nid`. -/
def agreementsFor (ags : List NegotiationAgreement) (nid : String) :
    List NegotiationAgreement :=
  ags.filter (fun a => a.negotiation_id == nid)

/-- The ACTIVE agreements recorded for negotiation `nid`. -/
def activeAgreementsFor (ags : List NegotiationAgreement) (nid : String) :
    List NegotiationAgreement :=
  ags.filter (fun a => a.negotiation_id == nid && a.status == .ACTIVE)

/-- Sample OPEN thread holding only its seeded OFFER message. -/
def exOpenThread : NegotiationThread :=
  ⟨"n1", "u1", "u1@x.com", "User One", "p1", "Ring", 500, .OPEN, 10, 10, 10,
    [⟨"m1", .USER, .OFFER, some 400, none, 10⟩], none⟩

/-- C5 counterexample: accepting on the concrete OPEN thread with the
agreement save (write 2) failing leaves exactly the committed state after
write 1: the thread carries an ACCEPT message yet its status is still OPEN
and no agreement exists — a half-accepted state the claim says cannot
occur. -/
theorem accept_not_atomic_counterexample :
    hasAcceptMessage (acceptCommittedAfter 1 30 ⟨[exOpenThread], [], ⟨[], 0⟩⟩
      "n1" 425 30 none "m2" "a1" "ptok1" "t1") "n1" = true ∧
    (findThread (acceptCommittedAfter 1 30 ⟨[exOpenThread], [], ⟨[], 0⟩⟩
      "n1" 425 30 none "m2" "a1" "ptok1" "t1").threads "n1").map
        NegotiationThread.status = some NegStatus.OPEN ∧
    agreementsFor (acceptCommittedAfter 1 30 ⟨[exOpenThread], [], ⟨[], 0⟩⟩
      "n1" 425 30 none "m2" "a1" "ptok1" "t1").agreements "n1" = [] := by
  refine ⟨rfl, rfl, rfl⟩

/-- C5 amended: the accept path is not transactional.  It issues five
sequential whole-document saves (ACCEPT message; agreements; thread link;
thread status; purchase token).  A failure of any save aborts the operation
but leaves the earlier saves committed; in particular, when the agreement
save (write 2) fails, the committed state has the ACCEPT message appended
to the thread while the thread status is still OPEN and the agreement store
is unchanged.  Only when all five saves succeed does the committed state
coincide with the state returned by a successful `admin_accept_offer`. -/
theorem accept_partial_commit (now : Nat) (s : SysState) (nid : String)
    (t : NegotiationThread) (amount : Rat) (ttl_minutes : Nat) (text : Option String)
    (mid agrId ptok ptok2 : String) (hfind : findThread s.threads nid = some t)
    (hopen : t.status = .OPEN) :
    (findThread (acceptCommittedAfter 1 now s nid amount ttl_minutes text mid agrId
        ptok ptok2).threads nid =
      some (appendMsgMut now ⟨mid, .ADMIN, .ACCEPT, some amount, text, now⟩ t)) ∧
    hasAcceptMessage (acceptCommittedAfter 1 now s nid amount ttl_minutes text mid agrId
        ptok ptok2) nid = true ∧
    (findThread (acceptCommittedAfter 1 now s nid amount ttl_minutes text mid agrId
        ptok ptok2).threads nid).map NegotiationThread.status = some .OPEN ∧
    (acceptCommittedAfter 1 now s nid amount ttl_minutes text mid agrId
        ptok ptok2).agreements = s.agreements ∧
    acceptCommittedAfter 5 now s nid amount ttl_minutes text mid agrId ptok ptok2 =
      (admin_accept_offer now s nid amount ttl_minutes text mid agrId ptok ptok2).snd := by
  have hnopen : ¬ t.status ≠ NegStatus.OPEN := by simp [hopen]
  have hseq1 : acceptCommittedAfter 1 now s nid amount ttl_minutes text mid agrId
      ptok ptok2 =
      ⟨(ns_add_message now s.threads nid .ADMIN .ACCEPT (some amount) text mid).snd,
        s.agreements, s.tokenStore⟩ := by
    unfold acceptCommittedAfter acceptWriteSequence
    rw [hfind]
    simp [hnopen]
  have hmsg : findThread (ns_add_message now s.threads nid .ADMIN .ACCEPT (some amount)
      text mid).snd nid =
      some (appendMsgMut now ⟨mid, .ADMIN, .ACCEPT, some amount, text, now⟩ t) := by
    unfold ns_add_message
    rw [hfind]
    have := findThread_updateThreadFirst s.threads nid
      (appendMsgMut now ⟨mid, .ADMIN, .ACCEPT, some amount, text, now⟩) (fun _ => rfl)
    simpa [hfind] using this
  refine ⟨?_, ?_, ?_, ?_, ?_⟩
  · rw [hseq1]
    exact hmsg
  · unfold hasAcceptMessage
    rw [hseq1]
    simp only [hmsg]
    simp [appendMsgMut, List.any_append]
  · rw [hseq1]
    simp only [hmsg]
    simp [appendMsgMut, hopen]
  · rw [hseq1]
  · unfold acceptCommittedAfter acceptWriteSequence admin_accept_offer
    rw [hfind]
    simp only [if_neg hnopen, hnopen]
    have hagr : (ns_create_agreement_on_accept now
        (ns_add_message now s.threads nid .ADMIN .ACCEPT (some amount) text mid).snd
        s.agreements nid amount ttl_minutes agrId ptok).fst.isSome = true := by
      unfold ns_create_agreement_on_accept
      rw [hmsg]
      rfl
    cases h2 : (ns_create_agreement_on_accept now
        (ns_add_message now s.threads nid .ADMIN .ACCEPT (some amount) text mid).snd
        s.agreements nid amount ttl_minutes agrId ptok).fst with
    | none => rw [h2] at hagr; simp at hagr
    | some agreement => simp [h2]

/-- C5 amended witness: on the concrete OPEN thread, the state committed
after write 1 keeps status OPEN with the ACCEPT message, and all five
writes reproduce the endpoint's final state. -/
theorem accept_partial_commit_witness :
    (findThread (acceptCommittedAfter 1 30 ⟨[exOpenThread], [], ⟨[], 0⟩⟩
      "n1" 425 30 none "m2" "a1" "ptok1" "t1").threads "n1").map
        NegotiationThread.status = some NegStatus.OPEN ∧
    acceptCommittedAfter 5 30 ⟨[exOpenThread], [], ⟨[], 0⟩⟩
        "n1" 425 30 none "m2" "a1" "ptok1" "t1" =
      (admin_accept_offer 30 ⟨[exOpenThread], [], ⟨[], 0⟩⟩
        "n1" 425 30 none "m2" "a1" "ptok1" "t1").snd := by
  have h := accept_partial_commit 30 ⟨[exOpenThread], [], ⟨[], 0⟩⟩ "n1" exOpenThread
    425 30 none "m2" "a1" "ptok1" "t1" rfl rfl
  exact ⟨h.2.2.1, h.2.2.2.2⟩

/-! ### Claim C7 -/

theorem get_user_total_spend_eq (uid : String) (orders : List Order) :
    get_user_total_spend uid orders =
      ((orders.filter (fun o => o.user_id == uid && o.status == .COMPLETED)).map
        Order.order_total).sum := by
  unfold get_user_total_spend list_orders_for_user
  have hperm : List.Perm
      ((List.insertionSort orderDescLe
        (orders.filter (fun o => o.user_id == uid))).filter
        (fun o => o.status == OrderStatus.COMPLETED))
      ((orders.filter (fun o => o.user_id == uid)).filter
        (fun o => o.status == OrderStatus.COMPLETED)) :=
    (List.perm_insertionSort _ _).filter _
  rw [(hperm.map Order.order_total).sum_eq]
  rw [List.filter_filter]
  apply congrArg
  apply congrArg
  apply List.filter_congr
  intro o _
  rw [Bool.and_comm]

/-- C7: a user is NYP-eligible exactly when the admin override flag is set
or the sum of order totals over that user's COMPLETED orders reaches the
threshold 1000; prepending an order of any non-COMPLETED status never
changes the user's counted spend; and when eligibility is false, the create
negotiation endpoint fails with the forbidden error leaving the state
unchanged. -/
theorem nyp_eligibility_correct (uid : String) (userRec : Option UserRecord)
    (orders : List Order) :
    (check_nyp_eligibility uid userRec orders = true ↔
      nypOverrideEnabled userRec = true ∨
        NYP_UNLOCK_THRESHOLD ≤
          ((orders.filter (fun o => o.user_id == uid && o.status == .COMPLETED)).map
            Order.order_total).sum) ∧
    (∀ o : Order, o.status ≠ .COMPLETED →
      get_user_total_spend uid (o :: orders) = get_user_total_spend uid orders) ∧
    (∀ now : Nat, ∀ s : SysState, ∀ user_email user_name : String,
      ∀ product : Option ProductInfo, ∀ pid : String, ∀ offer : Rat,
      ∀ text : Option String, ∀ nid mid : String,
      check_nyp_eligibility uid userRec orders = false →
      create_negotiation now s uid user_email user_name userRec orders product pid
        offer text nid mid = (.error .forbidden, s)) := by
  refine ⟨?_, ?_, ?_⟩
  · unfold check_nyp_eligibility has_unlocked_nyp has_unlocked_threshold
    rw [get_user_total_spend_eq]
    by_cases hov : nypOverrideEnabled userRec = true
    · simp [hov]
    · simp [hov]
  · intro o ho
    rw [get_user_total_spend_eq, get_user_total_spend_eq]
    have hno : (o.user_id == uid && o.status == OrderStatus.COMPLETED) = false := by
      cases h : o.status == OrderStatus.COMPLETED with
      | true => exact absurd (by simpa using h) ho
      | false => simp
    simp [List.filter_cons, hno]
  · intro now s user_email user_name product pid offer text nid mid helig
    unfold create_negotiation
    simp [helig]

/-- C7 witness: a user with one COMPLETED order of 1000 is eligible; a user
with the same order REFUNDED is not, and creating a negotiation then fails
forbidden. -/
theorem nyp_eligibility_correct_witness :
    check_nyp_eligibility "u1" none [⟨"o1", "u1", 1000, .COMPLETED, 5⟩] = true ∧
    (create_negotiation 9 ⟨[], [], ⟨[], 0⟩⟩ "u1" "e" "n" none
      [⟨"o1", "u1", 1000, .REFUNDED, 5⟩] (some ⟨"Ring", 500, true⟩) "p1" 400 none
      "n1" "m1") = (.error .forbidden, ⟨[], [], ⟨[], 0⟩⟩) := by
  constructor
  · exact (nyp_eligibility_correct "u1" none [⟨"o1", "u1", 1000, .COMPLETED, 5⟩]).1.mpr
      (Or.inr (by norm_num [NYP_UNLOCK_THRESHOLD, List.filter]))
  · exact (nyp_eligibility_correct "u1" none [⟨"o1", "u1", 1000, .REFUNDED, 5⟩]).2.2
      9 ⟨[], [], ⟨[], 0⟩⟩ "e" "n" (some ⟨"Ring", 500, true⟩) "p1" 400 none "n1" "m1"
      (by decide)

/-! ## JSON store (`backend/services/persistence/json_store.py`) -/

/-- The committed filesystem under the store's base directory: one entry per
logical file name holding its last fully written document. -/
def setEntry {Doc : Type} : List (String × Doc) → String → Doc → List (String × Doc)
  | [], n, d => [(n, d)]
  | (m, e) :: fs, n, d => if m = n then (n, d) :: fs else (m, e) :: setEntry fs n d

/-- One attempted `JsonStore.save name doc` (lines 125-161): the document is
first written to a temp file; with `ok = true` the `os.replace` commits the
whole new document over the destination; with `ok = false` an exception
before the replace unlinks the temp file and re-raises, leaving the
destination untouched. -/
def applySave {Doc : Type} (fs : List (String × Doc)) (op : String × Doc × Bool) :
    List (String × Doc) :=
  if op.2.2 then setEntry fs op.1 op.2.1 else fs

/-- The filesystem after a run of attempted saves, starting from an empty
base directory. -/
def runSaves {Doc : Type} (ops : List (String × Doc × Bool)) : List (String × Doc) :=
  ops.foldl applySave []

/-- `JsonStore.load name default` (lines 97-123): the file's document when
the file exists, else `default`. -/
def js_load {Doc : Type} (fs : List (String × Doc)) (name : String) (default : Doc) :
    Doc :=
  match fs.find? (fun e => e.1 == name) with
  | none => default
  | some e => e.2

/-- The document of the most recent successful save under `name`. -/
def lastSaved {Doc : Type} (ops : List (String × Doc × Bool)) (name : String) :
    Option Doc :=
  ops.foldl (fun acc op => if op.2.2 && op.1 == name then some op.2.1 else acc) none

theorem js_load_setEntry_self {Doc : Type} (fs : List (String × Doc)) (n : String)
    (d default : Doc) : js_load (setEntry fs n d) n default = d := by
  induction fs with
  | nil => simp [setEntry, js_load]
  | cons e fs ih =>
    by_cases h : e.1 = n
    · cases e
      simp_all [setEntry, js_load]
    · cases e with
      | mk m v =>
        simp only [setEntry]
        rw [if_neg h]
        unfold js_load
        rw [List.find?_cons_of_neg _ (by simpa using h)]
        exact ih

theorem js_load_setEntry_ne {Doc : Type} (fs : List (String × Doc)) (n m : String)
    (d default : Doc) (h : n ≠ m) :
    js_load (setEntry fs n d) m default = js_load fs m default := by
  induction fs with
  | nil =>
    unfold setEntry js_load
    rw [List.find?_cons_of_neg _ (by simpa using h), List.find?_nil]
  | cons e fs ih =>
    cases e with
    | mk k v =>
      by_cases hk : k = n
      · unfold setEntry js_load
        rw [if_pos hk, List.find?_cons_of_neg _ (by simpa using h),
          List.find?_cons_of_neg _ (by simp [hk, h])]
      · unfold setEntry js_load
        rw [if_neg hk]
        by_cases hm : k = m
        · rw [List.find?_cons_of_pos _ (by simpa using hm),
            List.find?_cons_of_pos _ (by simpa using hm)]
        · rw [List.find?_cons_of_neg _ (by simpa using hm),
            List.find?_cons_of_neg _ (by simpa using hm)]
          exact ih

theorem runSaves_loop {Doc : Type} (ops : List (String × Doc × Bool)) (name : String)
    (default : Doc) :
    ∀ fs : List (String × Doc), ∀ acc : Option Doc,
      js_load fs name default = acc.getD default →
      js_load (ops.foldl applySave fs) name default =
        (ops.foldl (fun a op => if op.2.2 && op.1 == name then some op.2.1 else a)
          acc).getD default := by
  induction ops with
  | nil => intro fs acc h; simpa using h
  | cons op rest ih =>
    intro fs acc h
    simp only [List.foldl_cons]
    apply ih
    by_cases hok : op.2.2
    · by_cases hname : op.1 = name
      · have : (op.2.2 && op.1 == name) = true := by simp [hok, hname]
        rw [this]
        unfold applySave
        rw [if_pos hok]
        simp only [Option.getD_some]
        rw [hname]
        exact js_load_setEntry_self fs name op.2.1 default
      · have : (op.2.2 && op.1 == name) = false := by simp [hname]
        rw [this]
        unfold applySave
        rw [if_pos hok]
        rw [js_load_setEntry_ne fs op.1 name op.2.1 default hname]
        exact h
    · have : (op.2.2 && op.1 == name) = false := by simp [hok]
      rw [this]
      unfold applySave
      rw [if_neg hok]
      exact h

/-- C8: after any run of attempted saves from an empty directory, `load`
returns the document of the most recent successful save under the name, and
the `default` when no save under that name ever succeeded; each single
attempted save lets a subsequent reader observe either the complete new
document (`ok = true`) or exactly the previous state (`ok = false`, the
failure having occurred before the atomic rename), for the saved name and
for every other name alike. -/
theorem js_load_correct {Doc : Type} (ops : List (String × Doc × Bool)) (name : String)
    (default : Doc) :
    js_load (runSaves ops) name default = (lastSaved ops name).getD default ∧
    (∀ fs : List (String × Doc), ∀ n : String, ∀ d : Doc, ∀ ok : Bool,
      js_load (applySave fs (n, d, ok)) n default =
        if ok then d else js_load fs n default) ∧
    (∀ fs : List (String × Doc), ∀ n : String, ∀ d : Doc,
      js_load (applySave fs (n, d, false)) name default = js_load fs name default) := by
  refine ⟨?_, ?_, ?_⟩
  · exact runSaves_loop ops name default [] none rfl
  · intro fs n d ok
    cases ok with
    | true => simpa [applySave] using js_load_setEntry_self fs n d default
    | false => simp [applySave]
  · intro fs n d
    simp [applySave]

/-- C8 witness: two successful saves interleaved with a failed one — the
reader sees the last committed document, and an unsaved name yields the
default. -/
theorem js_load_correct_witness :
    js_load (runSaves [("threads", 1, true), ("threads", 2, false),
      ("threads", 3, true), ("tokens", 7, true)]) "threads" 0 = 3 ∧
    js_load (runSaves [("threads", 1, true), ("threads", 2, false),
      ("threads", 3, true), ("tokens", 7, true)]) "agreements" 0 = 0 := by
  constructor
  · rw [(js_load_correct [("threads", 1, true), ("threads", 2, false),
      ("threads", 3, true), ("tokens", 7, true)] "threads" 0).1]
    rfl
  · rw [(js_load_correct [("threads", 1, true), ("threads", 2, false),
      ("threads", 3, true), ("tokens", 7, true)] "agreements" 0).1]
    rfl

/-! ### Claim C9 -/

theorem find_isSome_bind_amount (l : List NegotiationMessage) :
    (l.find? (fun m => m.amount.isSome)).bind (fun m => m.amount) =
      (l.filterMap (fun m => m.amount)).head? := by
  induction l with
  | nil => rfl
  | cons m l ih =>
    cases h : m.amount with
    | none =>
      rw [List.find?_cons_of_neg _ (by simp [h]), List.filterMap_cons_none (by simp [h])]
      exact ih
    | some a =>
      rw [List.find?_cons_of_pos _ (by simp [h])]
      simp [List.filterMap_cons, h]

theorem lastAmountOf_eq_getLast (ms : List NegotiationMessage) :
    lastAmountOf ms = (ms.filterMap (fun m => m.amount)).getLast? := by
  unfold lastAmountOf
  rw [find_isSome_bind_amount, List.filterMap_reverse, List.getLast?_eq_head?_reverse]

/-- C9: `list_threads_for_user` returns exactly one summary per thread of
that user (and `list_threads_for_admin` one per thread passing the optional
status filter), the output is ordered by `last_activity_at` descending, and
each summary's `message_count` is the thread's number of messages while its
`last_amount` is the amount of the most recent message carrying an amount
(equivalently, the last entry of the amounts in message order), `none` when
no message carries one. -/
theorem list_threads_for_user_correct (threads : List NegotiationThread) (uid : String) :
    List.Perm (list_threads_for_user threads uid)
      ((threads.filter (fun t => t.user_id == uid)).map to_summary) ∧
    List.Sorted summaryDescLe (list_threads_for_user threads uid) ∧
    (∀ st : Option NegStatus,
      List.Perm (list_threads_for_admin threads st)
        ((threads.filter (fun t =>
          match st with
          | none => true
          | some x => t.status == x)).map to_summary) ∧
      List.Sorted summaryDescLe (list_threads_for_admin threads st)) ∧
    (∀ t : NegotiationThread,
      (to_summary t).message_count = t.messages.length ∧
      (to_summary t).last_amount = (t.messages.filterMap (fun m => m.amount)).getLast? ∧
      ((to_summary t).last_amount = none ↔ ∀ m ∈ t.messages, m.amount = none)) := by
  refine ⟨?_, ?_, ?_, ?_⟩
  · exact List.perm_insertionSort _ _
  · exact List.sorted_insertionSort _ _
  · intro st
    exact ⟨List.perm_insertionSort _ _, List.sorted_insertionSort _ _⟩
  · intro t
    refine ⟨rfl, lastAmountOf_eq_getLast t.messages, ?_⟩
    have h1 : (to_summary t).last_amount = lastAmountOf t.messages := rfl
    rw [h1, lastAmountOf_eq_getLast, List.getLast?_eq_none_iff, List.filterMap_eq_nil_iff]

/-- C9 witness: two threads of the same user come back newest first with the
correct counts and last amounts. -/
theorem list_threads_for_user_correct_witness :
    list_threads_for_user
      [⟨"n1", "u1", "e", "N", "p1", "Ring", 500, .OPEN, 10, 10, 10,
        [⟨"m1", .USER, .OFFER, some 400, none, 10⟩], none⟩,
       ⟨"n2", "u1", "e", "N", "p2", "Band", 300, .OPEN, 20, 25, 25,
        [⟨"m2", .USER, .OFFER, some 250, none, 20⟩,
         ⟨"m3", .ADMIN, .NOTE, none, some "hello", 25⟩], none⟩] "u1" =
      [to_summary ⟨"n2", "u1", "e", "N", "p2", "Band", 300, .OPEN, 20, 25, 25,
        [⟨"m2", .USER, .OFFER, some 250, none, 20⟩,
         ⟨"m3", .ADMIN, .NOTE, none, some "hello", 25⟩], none⟩,
       to_summary ⟨"n1", "u1", "e", "N", "p1", "Ring", 500, .OPEN, 10, 10, 10,
        [⟨"m1", .USER, .OFFER, some 400, none, 10⟩], none⟩] ∧
    (to_summary ⟨"n2", "u1", "e", "N", "p2", "Band", 300, .OPEN, 20, 25, 25,
        [⟨"m2", .USER, .OFFER, some 250, none, 20⟩,
         ⟨"m3", .ADMIN, .NOTE, none, some "hello", 25⟩], none⟩).last_amount = some 250 ∧
    (to_summary ⟨"n2", "u1", "e", "N", "p2", "Band", 300, .OPEN, 20, 25, 25,
        [⟨"m2", .USER, .OFFER, some 250, none, 20⟩,
         ⟨"m3", .ADMIN, .NOTE, none, some "hello", 25⟩], none⟩).message_count = 2 := by
  refine ⟨rfl, ?_, ?_⟩
  · rw [(list_threads_for_user_correct [] "u1").2.2.2
      ⟨"n2", "u1", "e", "N", "p2", "Band", 300, .OPEN, 20, 25, 25,
        [⟨"m2", .USER, .OFFER, some 250, none, 20⟩,
         ⟨"m3", .ADMIN, .NOTE, none, some "hello", 25⟩], none⟩ |>.2.1]
    rfl
  · exact ((list_threads_for_user_correct [] "u1").2.2.2
      ⟨"n2", "u1", "e", "N", "p2", "Band", 300, .OPEN, 20, 25, 25,
        [⟨"m2", .USER, .OFFER, some 250, none, 20⟩,
         ⟨"m3", .ADMIN, .NOTE, none, some "hello", 25⟩], none⟩).1

/-! ### Claim C4: reachable-state invariant -/

theorem map_nid_updateThreadFirst (ts : List NegotiationThread) (nid : String)
    (f : NegotiationThread → NegotiationThread)
    (hf : ∀ t, (f t).negotiation_id = t.negotiation_id) :
    (updateThreadFirst ts nid f).map (fun t => t.negotiation_id) =
      ts.map (fun t => t.negotiation_id) := by
  induction ts with
  | nil => rfl
  | cons u ts ih =>
    by_cases h : u.negotiation_id = nid
    · simp [updateThreadFirst, h, hf]
    · simp [updateThreadFirst, h, ih]

theorem mem_updateThreadFirst (ts : List NegotiationThread) (nid : String)
    (f : NegotiationThread → NegotiationThread)
    (hnd : (ts.map (fun t => t.negotiation_id)).Nodup)
    (u : NegotiationThread) (hu : u ∈ updateThreadFirst ts nid f) :
    (u ∈ ts ∧ u.negotiation_id ≠ nid) ∨
      ∃ v ∈ ts, v.negotiation_id = nid ∧ u = f v := by
  induction ts with
  | nil => cases hu
  | cons w rest ih =>
    rw [List.map_cons, List.nodup_cons] at hnd
    by_cases hw : w.negotiation_id = nid
    · rw [updateThreadFirst, if_pos hw] at hu
      cases List.mem_cons.mp hu with
      | inl h => exact Or.inr ⟨w, List.mem_cons_self _ _, hw, h⟩
      | inr h =>
        refine Or.inl ⟨List.mem_cons_of_mem _ h, ?_⟩
        intro hnid
        apply hnd.1
        rw [hw, ← hnid]
        exact List.mem_map_of_mem (fun t => t.negotiation_id) h
    · rw [updateThreadFirst, if_neg hw] at hu
      cases List.mem_cons.mp hu with
      | inl h => exact Or.inl ⟨h ▸ List.mem_cons_self _ _, h ▸ hw⟩
      | inr h =>
        cases ih hnd.2 h with
        | inl h2 => exact Or.inl ⟨List.mem_cons_of_mem _ h2.1, h2.2⟩
        | inr h2 =>
          obtain ⟨v, hv, hvn, hvu⟩ := h2
          exact Or.inr ⟨v, List.mem_cons_of_mem _ hv, hvn, hvu⟩

theorem insertThread_append (ts : List NegotiationThread) (t : NegotiationThread)
    (h : findThread ts t.negotiation_id = none) : insertThread ts t = ts ++ [t] := by
  induction ts with
  | nil => rfl
  | cons u rest ih =>
    unfold findThread at h
    have h0 := List.find?_eq_none.mp h u (List.mem_cons_self _ _)
    have hne : u.negotiation_id ≠ t.negotiation_id := by simpa using h0
    rw [insertThread, if_neg hne]
    have hrest : findThread rest t.negotiation_id = none := by
      unfold findThread
      exact List.find?_eq_none.mpr (fun x hx =>
        List.find?_eq_none.mp h x (List.mem_cons_of_mem _ hx))
    rw [ih hrest]
    rfl

theorem mem_insertAgreement (ags : List NegotiationAgreement)
    (a u : NegotiationAgreement) (hu : u ∈ insertAgreement ags a) :
    u ∈ ags ∨ u = a := by
  induction ags with
  | nil => simpa [insertAgreement] using hu
  | cons b rest ih =>
    by_cases h : b.agreement_id = a.agreement_id
    · rw [insertAgreement, if_pos h] at hu
      cases List.mem_cons.mp hu with
      | inl h2 => exact Or.inr h2
      | inr h2 => exact Or.inl (List.mem_cons_of_mem _ h2)
    · rw [insertAgreement, if_neg h] at hu
      cases List.mem_cons.mp hu with
      | inl h2 => exact Or.inl (h2 ▸ List.mem_cons_self _ _)
      | inr h2 =>
        cases ih h2 with
        | inl h3 => exact Or.inl (List.mem_cons_of_mem _ h3)
        | inr h3 => exact Or.inr h3

theorem insertAgreement_cases (ags : List NegotiationAgreement)
    (a : NegotiationAgreement) :
    insertAgreement ags a = ags ++ [a] ∨
      ∃ l1 b l2, ags = l1 ++ b :: l2 ∧
        insertAgreement ags a = l1 ++ a :: l2 := by
  induction ags with
  | nil => exact Or.inl rfl
  | cons b rest ih =>
    by_cases h : b.agreement_id = a.agreement_id
    · exact Or.inr ⟨[], b, rest, rfl, by rw [insertAgreement, if_pos h]; rfl⟩
    · cases ih with
      | inl h2 =>
        refine Or.inl ?_
        rw [insertAgreement, if_neg h, h2]
        rfl
      | inr h2 =>
        obtain ⟨l1, c, l2, he, hi⟩ := h2
        refine Or.inr ⟨b :: l1, c, l2, by rw [he]; rfl, ?_⟩
        rw [insertAgreement, if_neg h, hi]
        rfl

theorem findThread_mem (ts : List NegotiationThread) (nid : String)
    (t : NegotiationThread) (h : findThread ts nid = some t) :
    t ∈ ts ∧ t.negotiation_id = nid := by
  unfold findThread at h
  refine ⟨List.mem_of_find?_eq_some h, ?_⟩
  have := List.find?_some h
  simpa using this

/-- Invariant of the reachable system states relevant to at-most-one-ACTIVE-
agreement: thread ids are pairwise distinct, every agreement points at an
existing thread, an OPEN thread has no agreement at all, and every
negotiation has at most one agreement. -/
structure SysInv (threads : List NegotiationThread)
    (ags : List NegotiationAgreement) : Prop where
  nodup : (threads.map (fun t => t.negotiation_id)).Nodup
  agrThread : ∀ a ∈ ags, a.negotiation_id ∈ threads.map (fun t => t.negotiation_id)
  openClean : ∀ t ∈ threads, t.status = .OPEN →
    agreementsFor ags t.negotiation_id = []
  atMostOne : ∀ nid, (agreementsFor ags nid).length ≤ 1

/-- Updating one thread in place preserves the invariant as long as the
update keeps the thread id and either keeps the status or moves it away
from OPEN. -/
theorem SysInv_updateThreads (threads : List NegotiationThread)
    (ags : List NegotiationAgreement) (nid : String)
    (f : NegotiationThread → NegotiationThread)
    (hfnid : ∀ t, (f t).negotiation_id = t.negotiation_id)
    (hfst : ∀ t, (f t).status = t.status ∨ (f t).status ≠ .OPEN)
    (hinv : SysInv threads ags) :
    SysInv (updateThreadFirst threads nid f) ags := by
  have hmap := map_nid_updateThreadFirst threads nid f hfnid
  refine ⟨?_, ?_, ?_, hinv.atMostOne⟩
  · rw [hmap]
    exact hinv.nodup
  · intro a ha
    rw [hmap]
    exact hinv.agrThread a ha
  · intro u hu hopen
    cases mem_updateThreadFirst threads nid f hinv.nodup u hu with
    | inl h => exact hinv.openClean u h.1 hopen
    | inr h =>
      obtain ⟨v, hv, hvn, hvu⟩ := h
      cases hfst v with
      | inl hpres =>
        have hvopen : v.status = .OPEN := by rw [← hpres, ← hvu]; exact hopen
        have := hinv.openClean v hv hvopen
        rw [hvu, hfnid]
        exact this
      | inr hterm => exact absurd (hvu ▸ hopen) hterm

theorem agreementsFor_append (l1 l2 : List NegotiationAgreement) (nid : String) :
    agreementsFor (l1 ++ l2) nid = agreementsFor l1 nid ++ agreementsFor l2 nid :=
  List.filter_append _ _

theorem agreementsFor_nil_iff (ags : List NegotiationAgreement) (nid : String) :
    agreementsFor ags nid = [] ↔ ∀ a ∈ ags, a.negotiation_id ≠ nid := by
  unfold agreementsFor
  rw [List.filter_eq_nil_iff]
  constructor
  · intro h a ha
    simpa using h a ha
  · intro h a ha
    simpa using h a ha

theorem SysInv_create_negotiation (now : Nat) (s : SysState)
    (uid user_email user_name : String) (userRec : Option UserRecord)
    (orders : List Order) (product : Option ProductInfo) (pid : String)
    (offer : Rat) (text : Option String) (nid mid : String)
    (hinv : SysInv s.threads s.agreements)
    (hnid : findThread s.threads nid = none) :
    SysInv (create_negotiation now s uid user_email user_name userRec orders product
        pid offer text nid mid).snd.threads
      (create_negotiation now s uid user_email user_name userRec orders product
        pid offer text nid mid).snd.agreements := by
  unfold create_negotiation
  by_cases hc : check_nyp_eligibility uid userRec orders = true
  · simp only [hc, not_true_eq_false, if_false]
    cases product with
    | none => exact hinv
    | some p =>
      by_cases hp : p.name_your_price = true
      · simp only [hp, not_true_eq_false, if_false]
        unfold ns_create_thread
        simp only []
        have happ := insertThread_append s.threads
          ⟨nid, uid, user_email, user_name, pid, p.title, p.price, .OPEN, now, now,
            now, [⟨mid, .USER, .OFFER, some offer, text, now⟩], none⟩ hnid
        rw [happ]
        have hfresh : nid ∉ s.threads.map (fun t => t.negotiation_id) := by
          intro hmem
          obtain ⟨u, hu, hun⟩ := List.mem_map.mp hmem
          have := List.find?_eq_none.mp hnid u hu
          simp [hun] at this
        refine ⟨?_, ?_, ?_, hinv.atMostOne⟩
        · rw [List.map_append, List.nodup_append]
          exact ⟨hinv.nodup, List.nodup_singleton _, by
            intro x hx hx2
            simp only [List.map_cons, List.map_nil, List.mem_singleton] at hx2
            exact hfresh (hx2 ▸ hx)⟩
        · intro a ha
          rw [List.map_append]
          exact List.mem_append_left _ (hinv.agrThread a ha)
        · intro u hu hopen
          cases List.mem_append.mp hu with
          | inl h => exact hinv.openClean u h hopen
          | inr h =>
            rw [List.mem_singleton] at h
            subst h
            rw [agreementsFor_nil_iff]
            intro a ha
            intro hcontra
            apply hfresh
            have hn : a.negotiation_id = nid := hcontra
            rw [← hn]
            exact hinv.agrThread a ha
      · simp only [hp]
        simp only [Bool.false_eq_true, not_false_eq_true, if_true]
        exact hinv
  · rw [if_pos hc]
    exact hinv

theorem SysInv_add_user_message (now : Nat) (s : SysState) (uid nid : String)
    (kind : MsgKind) (amount : Option Rat) (text : Option String) (mid : String)
    (hinv : SysInv s.threads s.agreements) :
    SysInv (add_user_message now s uid nid kind amount text mid).snd.threads
      (add_user_message now s uid nid kind amount text mid).snd.agreements := by
  cases heq : findThread s.threads nid with
  | none =>
    have h : (add_user_message now s uid nid kind amount text mid).snd = s := by
      unfold add_user_message
      rw [heq]
    rw [h]
    exact hinv
  | some t =>
    by_cases h1 : t.user_id ≠ uid
    · have h : (add_user_message now s uid nid kind amount text mid).snd = s := by
        unfold add_user_message
        rw [heq]
        simp [h1]
      rw [h]
      exact hinv
    · by_cases h2 : t.status ≠ NegStatus.OPEN
      · have h : (add_user_message now s uid nid kind amount text mid).snd = s := by
          unfold add_user_message
          rw [heq]
          simp [h1, h2]
        rw [h]
        exact hinv
      · by_cases h3 : kind ≠ MsgKind.OFFER ∧ kind ≠ MsgKind.NOTE
        · have h : (add_user_message now s uid nid kind amount text mid).snd = s := by
            unfold add_user_message
            rw [heq]
            simp [h1, h2, h3]
          rw [h]
          exact hinv
        · by_cases h4 : kind = MsgKind.OFFER ∧ amount = none
          · have h : (add_user_message now s uid nid kind amount text mid).snd = s := by
              unfold add_user_message
              rw [heq]
              simp [h1, h2, h3, h4]
            rw [h]
            exact hinv
          · have e1 : ns_add_message now s.threads nid .USER kind amount text mid =
                (some (appendMsgMut now ⟨mid, .USER, kind, amount, text, now⟩ t),
                  updateThreadFirst s.threads nid
                    (appendMsgMut now ⟨mid, .USER, kind, amount, text, now⟩)) := by
              unfold ns_add_message
              rw [heq]
            have h : (add_user_message now s uid nid kind amount text mid).snd =
                ⟨updateThreadFirst s.threads nid
                    (appendMsgMut now ⟨mid, .USER, kind, amount, text, now⟩),
                  s.agreements, s.tokenStore⟩ := by
              unfold add_user_message
              rw [heq]
              simp [h1, h2, h3, h4, e1]
            rw [h]
            exact SysInv_updateThreads s.threads s.agreements nid _
              (fun _ => rfl) (fun _ => Or.inl rfl) hinv

theorem SysInv_admin_counter (now : Nat) (s : SysState) (nid : String) (amount : Rat)
    (text : Option String) (mid : String) (hinv : SysInv s.threads s.agreements) :
    SysInv (admin_counter_offer now s nid amount text mid).snd.threads
      (admin_counter_offer now s nid amount text mid).snd.agreements := by
  cases heq : findThread s.threads nid with
  | none =>
    have h : (admin_counter_offer now s nid amount text mid).snd = s := by
      unfold admin_counter_offer
      rw [heq]
    rw [h]
    exact hinv
  | some t =>
    by_cases h2 : t.status ≠ NegStatus.OPEN
    · have h : (admin_counter_offer now s nid amount text mid).snd = s := by
        unfold admin_counter_offer
        rw [heq]
        simp [h2]
      rw [h]
      exact hinv
    · have e1 : ns_add_message now s.threads nid .ADMIN .COUNTER (some amount) text mid =
          (some (appendMsgMut now ⟨mid, .ADMIN, .COUNTER, some amount, text, now⟩ t),
            updateThreadFirst s.threads nid
              (appendMsgMut now ⟨mid, .ADMIN, .COUNTER, some amount, text, now⟩)) := by
        unfold ns_add_message
        rw [heq]
      have h : (admin_counter_offer now s nid amount text mid).snd =
          ⟨updateThreadFirst s.threads nid
              (appendMsgMut now ⟨mid, .ADMIN, .COUNTER, some amount, text, now⟩),
            s.agreements, s.tokenStore⟩ := by
        unfold admin_counter_offer
        rw [heq]
        simp [h2, e1]
      rw [h]
      exact SysInv_updateThreads s.threads s.agreements nid _
        (fun _ => rfl) (fun _ => Or.inl rfl) hinv

theorem SysInv_admin_close (now : Nat) (s : SysState) (nid : String)
    (text : Option String) (mid : String) (hinv : SysInv s.threads s.agreements) :
    SysInv (admin_close_negotiation now s nid text mid).snd.threads
      (admin_close_negotiation now s nid text mid).snd.agreements := by
  cases heq : findThread s.threads nid with
  | none =>
    have h : (admin_close_negotiation now s nid text mid).snd = s := by
      unfold admin_close_negotiation
      rw [heq]
    rw [h]
    exact hinv
  | some t =>
    by_cases h2 : t.status = NegStatus.CLOSED
    · have h : (admin_close_negotiation now s nid text mid).snd = s := by
        unfold admin_close_negotiation
        rw [heq]
        simp [h2]
      rw [h]
      exact hinv
    · have e1 : ns_add_message now s.threads nid .ADMIN .CLOSE none text mid =
          (some (appendMsgMut now ⟨mid, .ADMIN, .CLOSE, none, text, now⟩ t),
            updateThreadFirst s.threads nid
              (appendMsgMut now ⟨mid, .ADMIN, .CLOSE, none, text, now⟩)) := by
        unfold ns_add_message
        rw [heq]
      have hfind1 : findThread (updateThreadFirst s.threads nid
          (appendMsgMut now ⟨mid, .ADMIN, .CLOSE, none, text, now⟩)) nid =
          some (appendMsgMut now ⟨mid, .ADMIN, .CLOSE, none, text, now⟩ t) := by
        have := findThread_updateThreadFirst s.threads nid
          (appendMsgMut now ⟨mid, .ADMIN, .CLOSE, none, text, now⟩) (fun _ => rfl)
        simpa [heq] using this
      have e2 : ns_set_status now (updateThreadFirst s.threads nid
          (appendMsgMut now ⟨mid, .ADMIN, .CLOSE, none, text, now⟩)) nid .CLOSED =
          (some (setStatusMut now .CLOSED
              (appendMsgMut now ⟨mid, .ADMIN, .CLOSE, none, text, now⟩ t)),
            updateThreadFirst (updateThreadFirst s.threads nid
              (appendMsgMut now ⟨mid, .ADMIN, .CLOSE, none, text, now⟩)) nid
              (setStatusMut now .CLOSED)) := by
        unfold ns_set_status
        rw [hfind1]
      have h : (admin_close_negotiation now s nid text mid).snd =
          ⟨updateThreadFirst (updateThreadFirst s.threads nid
              (appendMsgMut now ⟨mid, .ADMIN, .CLOSE, none, text, now⟩)) nid
              (setStatusMut now .CLOSED),
            s.agreements, s.tokenStore⟩ := by
        unfold admin_close_negotiation
        rw [heq]
        simp [h2, e1, e2]
      rw [h]
      have hinv1 : SysInv (updateThreadFirst s.threads nid
          (appendMsgMut now ⟨mid, .ADMIN, .CLOSE, none, text, now⟩)) s.agreements :=
        SysInv_updateThreads s.threads s.agreements nid _
          (fun _ => rfl) (fun _ => Or.inl rfl) hinv
      exact SysInv_updateThreads _ s.agreements nid _
        (fun _ => rfl) (fun _ => Or.inr (by simp [setStatusMut])) hinv1

theorem agreementsFor_cons (a : NegotiationAgreement) (l : List NegotiationAgreement)
    (nid : String) :
    agreementsFor (a :: l) nid =
      if a.negotiation_id = nid then a :: agreementsFor l nid
      else agreementsFor l nid := by
  unfold agreementsFor
  rw [List.filter_cons]
  by_cases h : a.negotiation_id = nid
  · simp [h]
  · simp [h]

theorem SysInv_admin_accept (now : Nat) (s : SysState) (nid : String) (amount : Rat)
    (ttl_minutes : Nat) (text : Option String) (mid agrId ptok ptok2 : String)
    (hinv : SysInv s.threads s.agreements) :
    SysInv
      (admin_accept_offer now s nid amount ttl_minutes text mid agrId ptok
        ptok2).snd.threads
      (admin_accept_offer now s nid amount ttl_minutes text mid agrId ptok
        ptok2).snd.agreements := by
  cases heq : findThread s.threads nid with
  | none =>
    have h : (admin_accept_offer now s nid amount ttl_minutes text mid agrId ptok
        ptok2).snd = s := by
      unfold admin_accept_offer
      rw [heq]
    rw [h]
    exact hinv
  | some t =>
    by_cases h2 : t.status ≠ NegStatus.OPEN
    · have h : (admin_accept_offer now s nid amount ttl_minutes text mid agrId ptok
          ptok2).snd = s := by
        unfold admin_accept_offer
        rw [heq]
        simp [h2]
      rw [h]
      exact hinv
    · have hopen : t.status = NegStatus.OPEN := not_not.mp h2
      have hmem := findThread_mem s.threads nid t heq
      have hclean : agreementsFor s.agreements nid = [] := by
        have := hinv.openClean t hmem.1 hopen
        rwa [hmem.2] at this
      have e1 : ns_add_message now s.threads nid .ADMIN .ACCEPT (some amount) text mid =
          (some (appendMsgMut now ⟨mid, .ADMIN, .ACCEPT, some amount, text, now⟩ t),
            updateThreadFirst s.threads nid
              (appendMsgMut now ⟨mid, .ADMIN, .ACCEPT, some amount, text, now⟩)) := by
        unfold ns_add_message
        rw [heq]
      have hfind1 : findThread (updateThreadFirst s.threads nid
          (appendMsgMut now ⟨mid, .ADMIN, .ACCEPT, some amount, text, now⟩)) nid =
          some (appendMsgMut now ⟨mid, .ADMIN, .ACCEPT, some amount, text, now⟩ t) := by
        have := findThread_updateThreadFirst s.threads nid
          (appendMsgMut now ⟨mid, .ADMIN, .ACCEPT, some amount, text, now⟩) (fun _ => rfl)
        simpa [heq] using this
      have e2 : ns_create_agreement_on_accept now
          (updateThreadFirst s.threads nid
            (appendMsgMut now ⟨mid, .ADMIN, .ACCEPT, some amount, text, now⟩))
          s.agreements nid amount ttl_minutes agrId ptok =
          (some ⟨agrId, nid, t.user_id, t.product_id, t.product_title, amount,
              .ACTIVE, ptok, now + ttl_minutes * 60, now, none⟩,
            updateThreadFirst (updateThreadFirst s.threads nid
              (appendMsgMut now ⟨mid, .ADMIN, .ACCEPT, some amount, text, now⟩)) nid
              (setAgreementIdMut agrId),
            insertAgreement s.agreements
              ⟨agrId, nid, t.user_id, t.product_id, t.product_title, amount,
                .ACTIVE, ptok, now + ttl_minutes * 60, now, none⟩) := by
        unfold ns_create_agreement_on_accept
        rw [hfind1]
        rfl
      have hfind2 : findThread (updateThreadFirst (updateThreadFirst s.threads nid
          (appendMsgMut now ⟨mid, .ADMIN, .ACCEPT, some amount, text, now⟩)) nid
          (setAgreementIdMut agrId)) nid =
          some (setAgreementIdMut agrId
            (appendMsgMut now ⟨mid, .ADMIN, .ACCEPT, some amount, text, now⟩ t)) := by
        have := findThread_updateThreadFirst (updateThreadFirst s.threads nid
          (appendMsgMut now ⟨mid, .ADMIN, .ACCEPT, some amount, text, now⟩)) nid
          (setAgreementIdMut agrId) (fun _ => rfl)
        simpa [hfind1] using this
      have e3 : ns_set_status now (updateThreadFirst (updateThreadFirst s.threads nid
          (appendMsgMut now ⟨mid, .ADMIN, .ACCEPT, some amount, text, now⟩)) nid
          (setAgreementIdMut agrId)) nid .ACCEPTED =
          (some (setStatusMut now .ACCEPTED (setAgreementIdMut agrId
              (appendMsgMut now ⟨mid, .ADMIN, .ACCEPT, some amount, text, now⟩ t))),
            updateThreadFirst (updateThreadFirst (updateThreadFirst s.threads nid
              (appendMsgMut now ⟨mid, .ADMIN, .ACCEPT, some amount, text, now⟩)) nid
              (setAgreementIdMut agrId)) nid (setStatusMut now .ACCEPTED)) := by
        unfold ns_set_status
        rw [hfind2]
      have hmain : (admin_accept_offer now s nid amount ttl_minutes text mid agrId ptok
          ptok2).snd =
          ⟨updateThreadFirst (updateThreadFirst (updateThreadFirst s.threads nid
              (appendMsgMut now ⟨mid, .ADMIN, .ACCEPT, some amount, text, now⟩)) nid
              (setAgreementIdMut agrId)) nid (setStatusMut now .ACCEPTED),
            insertAgreement s.agreements
              ⟨agrId, nid, t.user_id, t.product_id, t.product_title, amount,
                .ACTIVE, ptok, now + ttl_minutes * 60, now, none⟩,
            (create_token now s.tokenStore t.user_id t.product_id amount agrId
              ttl_minutes ptok2).snd⟩ := by
        unfold admin_accept_offer
        rw [heq]
        simp [h2, e1, e2, e3]
      rw [hmain]
      have hmap1 : (updateThreadFirst s.threads nid
          (appendMsgMut now ⟨mid, .ADMIN, .ACCEPT, some amount, text, now⟩)).map
          (fun u => u.negotiation_id) = s.threads.map (fun u => u.negotiation_id) :=
        map_nid_updateThreadFirst _ _ _ (fun _ => rfl)
      have hmap2 : (updateThreadFirst (updateThreadFirst s.threads nid
          (appendMsgMut now ⟨mid, .ADMIN, .ACCEPT, some amount, text, now⟩)) nid
          (setAgreementIdMut agrId)).map (fun u => u.negotiation_id) =
          s.threads.map (fun u => u.negotiation_id) := by
        rw [map_nid_updateThreadFirst _ nid (setAgreementIdMut agrId) (fun _ => rfl)]
        exact hmap1
      have hmap3 : (updateThreadFirst (updateThreadFirst (updateThreadFirst s.threads nid
          (appendMsgMut now ⟨mid, .ADMIN, .ACCEPT, some amount, text, now⟩)) nid
          (setAgreementIdMut agrId)) nid (setStatusMut now .ACCEPTED)).map
          (fun u => u.negotiation_id) = s.threads.map (fun u => u.negotiation_id) := by
        rw [map_nid_updateThreadFirst _ nid (setStatusMut now .ACCEPTED) (fun _ => rfl)]
        exact hmap2
      have hnodup1 : ((updateThreadFirst s.threads nid
          (appendMsgMut now ⟨mid, .ADMIN, .ACCEPT, some amount, text, now⟩)).map
          (fun u => u.negotiation_id)).Nodup := by
        rw [hmap1]
        exact hinv.nodup
      have hnodup2 : ((updateThreadFirst (updateThreadFirst s.threads nid
          (appendMsgMut now ⟨mid, .ADMIN, .ACCEPT, some amount, text, now⟩)) nid
          (setAgreementIdMut agrId)).map (fun u => u.negotiation_id)).Nodup := by
        rw [hmap2]
        exact hinv.nodup
      refine ⟨?_, ?_, ?_, ?_⟩
      · rw [hmap3]
        exact hinv.nodup
      · intro a ha
        rw [hmap3]
        cases mem_insertAgreement _ _ _ ha with
        | inl h => exact hinv.agrThread a h
        | inr h =>
          rw [h]
          exact hmem.2 ▸ List.mem_map_of_mem (fun u => u.negotiation_id) hmem.1
      · intro u hu hustat
        cases mem_updateThreadFirst _ nid _ hnodup2 u hu with
        | inr h =>
          obtain ⟨v, _, _, hvu⟩ := h
          rw [hvu] at hustat
          exact absurd hustat (by simp [setStatusMut])
        | inl h =>
          obtain ⟨huT2, hune⟩ := h
          cases mem_updateThreadFirst _ nid _ hnodup1 u huT2 with
          | inr h3 =>
            obtain ⟨v, _, hvn, hvu⟩ := h3
            exact absurd (by rw [hvu]; exact hvn) hune
          | inl h3 =>
            cases mem_updateThreadFirst _ nid _ hinv.nodup u h3.1 with
            | inr h4 =>
              obtain ⟨v, _, hvn, hvu⟩ := h4
              exact absurd (by rw [hvu]; exact hvn) hune
            | inl h4 =>
              have hold := hinv.openClean u h4.1 hustat
              rw [agreementsFor_nil_iff]
              intro a ha hcontra
              cases mem_insertAgreement _ _ _ ha with
              | inl h5 =>
                exact (agreementsFor_nil_iff s.agreements u.negotiation_id).mp hold
                  a h5 hcontra
              | inr h5 =>
                apply hune
                rw [← hcontra, h5]
      · intro nid0
        cases insertAgreement_cases s.agreements
          ⟨agrId, nid, t.user_id, t.product_id, t.product_title, amount,
            .ACTIVE, ptok, now + ttl_minutes * 60, now, none⟩ with
        | inl happ =>
          rw [happ, agreementsFor_append]
          by_cases hn : nid0 = nid
          · rw [hn, hclean]
            simpa using List.length_filter_le _
              [(⟨agrId, nid, t.user_id, t.product_id, t.product_title, amount,
                .ACTIVE, ptok, now + ttl_minutes * 60, now, none⟩ :
                NegotiationAgreement)]
          · have hA : agreementsFor
                [(⟨agrId, nid, t.user_id, t.product_id, t.product_title, amount,
                  .ACTIVE, ptok, now + ttl_minutes * 60, now, none⟩ :
                  NegotiationAgreement)] nid0 = [] := by
              rw [agreementsFor_nil_iff]
              intro a ha
              rw [List.mem_singleton] at ha
              rw [ha]
              intro hcc
              exact hn (by rw [← hcc])
            rw [hA, List.append_nil]
            exact hinv.atMostOne nid0
        | inr hrep =>
          obtain ⟨l1, b, l2, hags, hins⟩ := hrep
          rw [hins, agreementsFor_append, agreementsFor_cons]
          by_cases hn : nid0 = nid
          · have hsplit : agreementsFor l1 nid0 = [] ∧ agreementsFor l2 nid0 = [] := by
              have hc2 : agreementsFor (l1 ++ b :: l2) nid = [] := by
                rw [← hags]
                exact hclean
              rw [agreementsFor_append, agreementsFor_cons] at hc2
              rw [hn]
              constructor
              · cases List.append_eq_nil.mp hc2 with
                | intro hl hr => exact hl
              · have hr := (List.append_eq_nil.mp hc2).2
                by_cases hb : b.negotiation_id = nid
                · rw [if_pos hb] at hr
                  cases hr
                · rw [if_neg hb] at hr
                  exact hr
            rw [hsplit.1, hsplit.2]
            by_cases hA : (⟨agrId, nid, t.user_id, t.product_id, t.product_title,
                amount, .ACTIVE, ptok, now + ttl_minutes * 60, now, none⟩ :
                NegotiationAgreement).negotiation_id = nid0
            · rw [if_pos hA]
              simp
            · rw [if_neg hA]
              simp
          · have hA : ¬ (⟨agrId, nid, t.user_id, t.product_id, t.product_title,
                amount, .ACTIVE, ptok, now + ttl_minutes * 60, now, none⟩ :
                NegotiationAgreement).negotiation_id = nid0 := by
              intro hcc
              exact hn (by rw [← hcc])
            rw [if_neg hA]
            have hold := hinv.atMostOne nid0
            rw [hags, agreementsFor_append, agreementsFor_cons] at hold
            rw [List.length_append]
            rw [List.length_append] at hold
            by_cases hb : b.negotiation_id = nid0
            · rw [if_pos hb] at hold
              simp only [List.length_cons] at hold
              omega
            · rw [if_neg hb] at hold
              omega

/-- The empty starting state: no threads, agreements or tokens on disk. -/
def initSysState : SysState := ⟨[], [], ⟨[], 0⟩⟩

/-- One fault-free API-level transition of the system: each constructor
applies one of the state-mutating endpoints (or token-store operations) with
arbitrary caller-chosen inputs; the uuid generated for a new thread is fresh
(`uuid.uuid4()` collisions are assumed impossible).  Endpoints whose guards
reject the request return the state unchanged, so guard failures are
covered, but every `JsonStore.save` is assumed to succeed: the live-store
state left behind when a save raises mid-accept (the source performs the
dict mutations before the save and never rolls them back) is modelled
separately by `acceptMemAfterAgreementSaveFailure` below. -/
inductive SysStep : SysState → SysState → Prop where
  | createNeg (now : Nat) (s : SysState) (uid user_email user_name : String)
      (userRec : Option UserRecord) (orders : List Order)
      (product : Option ProductInfo) (pid : String) (offer : Rat)
      (text : Option String) (nid mid : String)
      (hnid : findThread s.threads nid = none) :
      SysStep s (create_negotiation now s uid user_email user_name userRec orders
        product pid offer text nid mid).snd
  | userMessage (now : Nat) (s : SysState) (uid nid : String) (kind : MsgKind)
      (amount : Option Rat) (text : Option String) (mid : String) :
      SysStep s (add_user_message now s uid nid kind amount text mid).snd
  | adminCounter (now : Nat) (s : SysState) (nid : String) (amount : Rat)
      (text : Option String) (mid : String) :
      SysStep s (admin_counter_offer now s nid amount text mid).snd
  | adminAccept (now : Nat) (s : SysState) (nid : String) (amount : Rat)
      (ttl_minutes : Nat) (text : Option String) (mid agrId ptok ptok2 : String) :
      SysStep s (admin_accept_offer now s nid amount ttl_minutes text mid agrId ptok
        ptok2).snd
  | adminClose (now : Nat) (s : SysState) (nid : String) (text : Option String)
      (mid : String) :
      SysStep s (admin_close_negotiation now s nid text mid).snd
  | tokenCreate (now : Nat) (s : SysState) (uid pid : String) (amount : Rat)
      (agrId : String) (ttl_minutes : Nat) (tok : String) :
      SysStep s ⟨s.threads, s.agreements,
        (create_token now s.tokenStore uid pid amount agrId ttl_minutes tok).snd⟩
  | tokenConsume (now : Nat) (s : SysState) (uid tok : String) :
      SysStep s (consume_token_sys now s uid tok).snd

/-- The states reachable from the empty state through API transitions. -/
inductive SysReachable : SysState → Prop where
  | init : SysReachable initSysState
  | step {s s2 : SysState} : SysReachable s → SysStep s s2 → SysReachable s2

theorem SysInv_init : SysInv initSysState.threads initSysState.agreements := by
  refine ⟨List.nodup_nil, ?_, ?_, ?_⟩
  · intro a ha
    cases ha
  · intro t ht
    cases ht
  · intro nid
    simp [agreementsFor, initSysState]

theorem SysInv_preserved {s s2 : SysState} (hinv : SysInv s.threads s.agreements)
    (hstep : SysStep s s2) : SysInv s2.threads s2.agreements := by
  cases hstep with
  | createNeg now s uid user_email user_name userRec orders product pid offer text
      nid mid hnid =>
    exact SysInv_create_negotiation now s uid user_email user_name userRec orders
      product pid offer text nid mid hinv hnid
  | userMessage now s uid nid kind amount text mid =>
    exact SysInv_add_user_message now s uid nid kind amount text mid hinv
  | adminCounter now s nid amount text mid =>
    exact SysInv_admin_counter now s nid amount text mid hinv
  | adminAccept now s nid amount ttl_minutes text mid agrId ptok ptok2 =>
    exact SysInv_admin_accept now s nid amount ttl_minutes text mid agrId ptok
      ptok2 hinv
  | adminClose now s nid text mid =>
    exact SysInv_admin_close now s nid text mid hinv
  | tokenCreate now s uid pid amount agrId ttl_minutes tok => exact hinv
  | tokenConsume now s uid tok => exact hinv

theorem SysInv_reachable {s : SysState} (h : SysReachable s) :
    SysInv s.threads s.agreements := by
  induction h with
  | init => exact SysInv_init
  | step _ hstep ih => exact SysInv_preserved ih hstep

/-- C4 amended: in every state reachable from the empty system through
fault-free execution of the negotiation endpoints and token-store
operations (every `JsonStore.save` succeeds), every negotiation has at most
one agreement with status ACTIVE.  The restriction to fault-free runs is
necessary: a save failure during accept leaves an OPEN thread with an
ACTIVE agreement in the live store, and a retried accept then yields two
ACTIVE agreements for one negotiation (see
`two_active_agreements_after_save_failure_counterexample`). -/
theorem at_most_one_active_agreement (s : SysState) (h : SysReachable s)
    (nid : String) : (activeAgreementsFor s.agreements nid).length ≤ 1 := by
  have hinv := SysInv_reachable h
  have hfil : activeAgreementsFor s.agreements nid =
      (agreementsFor s.agreements nid).filter (fun a => a.status == .ACTIVE) := by
    unfold activeAgreementsFor agreementsFor
    rw [List.filter_filter]
    apply List.filter_congr
    intro a _
    rw [Bool.and_comm]
  rw [hfil]
  exact le_trans (List.length_filter_le _ _) (hinv.atMostOne nid)

/-- C4 witness: the state reached by creating a negotiation (override-based
eligibility) and accepting it has exactly one ACTIVE agreement, within the
bound. -/
theorem at_most_one_active_agreement_witness :
    (activeAgreementsFor (admin_accept_offer 20
      (create_negotiation 10 initSysState "u1" "e" "N" (some ⟨true⟩) []
        (some ⟨"Ring", 500, true⟩) "p1" 400 none "n1" "m1").snd
      "n1" 425 30 none "m2" "a1" "ptok1" "t1").snd.agreements "n1").length ≤ 1 := by
  apply at_most_one_active_agreement
  exact SysReachable.step (SysReachable.step SysReachable.init
    (SysStep.createNeg 10 initSysState "u1" "e" "N" (some ⟨true⟩) []
      (some ⟨"Ring", 500, true⟩) "p1" 400 none "n1" "m1" rfl))
    (SysStep.adminAccept 20 _ "n1" 425 30 none "m2" "a1" "ptok1" "t1")

/-- The live in-memory store state when `_save_agreements`
(negotiation_store.py line 567) raises during `admin_accept_offer`: the
ACCEPT message was appended and saved, then the dict mutations of lines
565-566 (`self._agreements[agreement_id] = agreement`,
`thread.accepted_agreement_id = agreement_id`) happened before the failing
save, `JsonStore.save` re-raises (json_store.py line 161), and neither the
store nor the endpoint rolls anything back — so the process keeps an ACTIVE
agreement linked from a thread whose status is still OPEN, because
`set_status` was never reached. -/
def acceptMemAfterAgreementSaveFailure (now : Nat) (s : SysState) (nid : String)
    (amount : Rat) (ttl_minutes : Nat) (text : Option String)
    (mid agrId ptok : String) : SysState :=
  match findThread s.threads nid with
  | none => s
  | some t =>
    if t.status ≠ .OPEN then s
    else
      let r1 := ns_add_message now s.threads nid .ADMIN .ACCEPT (some amount) text mid
      let r2 := ns_create_agreement_on_accept now r1.snd s.agreements nid amount
        ttl_minutes agrId ptok
      ⟨r2.snd.fst, r2.snd.snd, s.tokenStore⟩

/-- C4 counterexample: accept the concrete OPEN thread `n1` and let the
agreement save fail — the live store then holds the ACTIVE agreement `a1`
while `n1` is still OPEN; retrying the accept (fresh uuids `m3`/`a2`)
passes the OPEN guard and creates a second ACTIVE agreement, so the
negotiation reaches a state with two ACTIVE agreements, violating the
claimed at-most-one bound. -/
theorem two_active_agreements_after_save_failure_counterexample :
    (findThread (acceptMemAfterAgreementSaveFailure 30 ⟨[exOpenThread], [], ⟨[], 0⟩⟩
        "n1" 425 30 none "m2" "a1" "ptok1").threads "n1").map
        NegotiationThread.status = some NegStatus.OPEN ∧
    (activeAgreementsFor (acceptMemAfterAgreementSaveFailure 30
        ⟨[exOpenThread], [], ⟨[], 0⟩⟩ "n1" 425 30 none "m2" "a1"
        "ptok1").agreements "n1").length = 1 ∧
    (activeAgreementsFor (admin_accept_offer 40
        (acceptMemAfterAgreementSaveFailure 30 ⟨[exOpenThread], [], ⟨[], 0⟩⟩
          "n1" 425 30 none "m2" "a1" "ptok1")
        "n1" 425 30 none "m3" "a2" "ptok2" "t2").snd.agreements "n1").length = 2 ∧
    ¬ (activeAgreementsFor (admin_accept_offer 40
        (acceptMemAfterAgreementSaveFailure 30 ⟨[exOpenThread], [], ⟨[], 0⟩⟩
          "n1" 425 30 none "m2" "a1" "ptok1")
        "n1" 425 30 none "m3" "a2" "ptok2" "t2").snd.agreements "n1").length ≤ 1 := by
  refine ⟨rfl, rfl, rfl, ?_⟩
  have h : (activeAgreementsFor (admin_accept_offer 40
      (acceptMemAfterAgreementSaveFailure 30 ⟨[exOpenThread], [], ⟨[], 0⟩⟩
        "n1" 425 30 none "m2" "a1" "ptok1")
      "n1" 425 30 none "m3" "a2" "ptok2" "t2").snd.agreements "n1").length = 2 := rfl
  rw [h]
  decide
